import Mathlib

/-!
Shallow embedding of the ordering subsystem of the Exodus backend
(`app/models/artist_song_order.py`, `artist_video_order.py`, `featured_music.py`
and the routes in `app/routes/song.py`, `video.py`, `artist.py`,
`featured_music.py`).

Modelling conventions, all taken from the source:
* The database is a record of lists of rows; a route handler is a pure
  function `DB → args → DB × Except Err α` returning the committed state
  after the request together with the HTTP outcome.  Every handler in the
  modelled routes commits at most once per transaction on its success path
  and discards the session on error (`db.rollback()` or the `get_db`
  `finally: db.close()`), so an error leaves the committed state of that
  transaction unchanged.  The video bulk-create handler commits twice
  (video rows first, order entries second); it is modelled as the
  two-phase function `add_videos` below.  The song bulk-create handler
  contains the same two-commit text but raises `UnboundLocalError` before
  any commit on every parsed batch (`add_song` below, with
  `add_song_intended` the two-phase create its docstring describes, used
  only as an over-approximation in the operation model).
* `SessionLocal` is built with `autoflush=False` (`app/models/database.py`),
  so a query inside a request never sees rows `db.add`-ed earlier in the
  same request; queries read the committed store.  Attribute writes on a
  loaded row object accumulate (last write wins) and are applied at
  `db.commit()`.
* The unique constraints declared on the junction tables
  (`UniqueConstraint('artist_id', 'song_id')`, `('artist_id', 'video_id')`,
  `unique=True` on `featured_music.song_id`) are enforced by the database
  at commit time: a commit whose inserts would violate them raises, the
  handler rolls back, and nothing of the transaction persists.
-/

namespace Exodus

/-- Row of the `artists` table (`app/models/artist.py`); only the primary
key is relevant to the ordering subsystem. -/
structure Artist where
  id : Nat
deriving Repr, DecidableEq

/-- Row of the `songs` table.  The routes and schemas read and write a
`Song.artist_id` ownership column (nullable: `admin-edit-song` clears it
with the `-1` sentinel), which is what the reorder validation filters on. -/
structure Song where
  id : Nat
  artist_id : Option Nat
deriving Repr, DecidableEq

/-- Row of the `videos` table (`app/models/video.py`); `artist_id` is the
foreign key to `artists`. -/
structure Video where
  id : Nat
  artist_id : Option Nat
deriving Repr, DecidableEq

/-- Row of `artist_song_orders` (`app/models/artist_song_order.py`):
`(artist_id, song_id) → display_order`, unique on `(artist_id, song_id)`. -/
structure ArtistSongOrder where
  artist_id : Nat
  song_id : Nat
  display_order : Int
deriving Repr, DecidableEq

/-- Row of `artist_video_orders` (`app/models/artist_video_order.py`):
`(artist_id, video_id) → display_order`, unique on `(artist_id, video_id)`. -/
structure ArtistVideoOrder where
  artist_id : Nat
  video_id : Nat
  display_order : Int
deriving Repr, DecidableEq

/-- Row of `featured_music` (`app/models/featured_music.py`):
`song_id → position`, `song_id` unique. -/
structure FeaturedMusic where
  song_id : Nat
  position : Int
deriving Repr, DecidableEq

/-- The committed database state: one list per table of the ordering
subsystem. -/
structure DB where
  artists : List Artist
  songs : List Song
  videos : List Video
  artist_song_orders : List ArtistSongOrder
  artist_video_orders : List ArtistVideoOrder
  featured_music : List FeaturedMusic
deriving Repr, DecidableEq

/-- Outcome of a failed request, abstracting the `HTTPException`s raised by
the routes; the payload of `notFound` / `invalidReference` is the id named
in the exception's detail string. -/
inductive Err where
  | notFound (id : Nat)
  | invalidReference (childId : Nat)
  | conflict
  | badRequest
  | storageFailure
deriving Repr, DecidableEq

/-- HTTP status code each error is surfaced with. -/
def Err.statusCode : Err → Nat
  | .notFound _ => 404
  | .invalidReference _ => 400
  | .conflict => 400
  | .badRequest => 400
  | .storageFailure => 500

/-- `db.query(func.max(col)).scalar()`: SQL `MAX` over a list of values,
`none` on the empty set. -/
def maxAgg : List Int → Option Int
  | [] => none
  | p :: ps =>
    match maxAgg ps with
    | none => some p
    | some m => some (max p m)

/-- `(artist_id, song_id)` key of an `artist_song_orders` row. -/
def ArtistSongOrder.key (e : ArtistSongOrder) : Nat × Nat :=
  (e.artist_id, e.song_id)

/-- `(artist_id, video_id)` key of an `artist_video_orders` row. -/
def ArtistVideoOrder.key (e : ArtistVideoOrder) : Nat × Nat :=
  (e.artist_id, e.video_id)

/-- The committed `display_order` values of artist `a`'s song scope. -/
def songOrderPositions (orders : List ArtistSongOrder) (a : Nat) : List Int :=
  (orders.filter (fun e => e.artist_id == a)).map (fun e => e.display_order)

/-- The committed `display_order` values of artist `a`'s video scope. -/
def videoOrderPositions (orders : List ArtistVideoOrder) (a : Nat) : List Int :=
  (orders.filter (fun e => e.artist_id == a)).map (fun e => e.display_order)

/-- `routes/song.py` lines 186-191: `max_position = db.query(func.max(
ArtistSongOrder.display_order)).filter(artist_id == a).scalar();
next_position = 1 if max_position is None else max_position + 1`. -/
def allocate_next_position_songs (orders : List ArtistSongOrder) (a : Nat) : Int :=
  match maxAgg (songOrderPositions orders a) with
  | none => 1
  | some m => m + 1

/-- `routes/video.py` lines 197-202, same allocator for the video scope. -/
def allocate_next_position_videos (orders : List ArtistVideoOrder) (a : Nat) : Int :=
  match maxAgg (videoOrderPositions orders a) with
  | none => 1
  | some m => m + 1

/-- `routes/featured_music.py` lines 143-144: global max over the whole
`featured_music` table. -/
def allocate_next_position_featured (featured : List FeaturedMusic) : Int :=
  match maxAgg (featured.map (fun e => e.position)) with
  | none => 1
  | some m => m + 1

/-- `db.query(ArtistSongOrder).filter(artist_id == a, song_id == s).first()`
is some row: the committed store has an order entry for `(a, s)`. -/
def hasSongEntry (orders : List ArtistSongOrder) (a s : Nat) : Bool :=
  orders.any (fun e => e.artist_id == a && e.song_id == s)

/-- Committed-store membership test for an artist-video order entry. -/
def hasVideoEntry (orders : List ArtistVideoOrder) (a v : Nat) : Bool :=
  orders.any (fun e => e.artist_id == a && e.video_id == v)

/-- Committed-store membership test for a featured entry. -/
def hasFeaturedEntry (featured : List FeaturedMusic) (s : Nat) : Bool :=
  featured.any (fun e => e.song_id == s)

/-- The database's check of a unique key constraint while flushing a list of
inserts into a table whose committed keys are `tbl`: each inserted key must
be absent from the table as it stands when that insert runs. -/
def insertKeysOK [BEq κ] : List κ → List κ → Bool
  | _, [] => true
  | tbl, k :: rest => !(tbl.contains k) && insertKeysOK (tbl ++ [k]) rest

/-- Constraint `unique_artist_song` checked on the pending inserts. -/
def songInsertsOK (tbl ins : List ArtistSongOrder) : Bool :=
  insertKeysOK (tbl.map ArtistSongOrder.key) (ins.map ArtistSongOrder.key)

/-- Constraint `unique_artist_video` checked on the pending inserts. -/
def videoInsertsOK (tbl ins : List ArtistVideoOrder) : Bool :=
  insertKeysOK (tbl.map ArtistVideoOrder.key) (ins.map ArtistVideoOrder.key)

/-- Unique `featured_music.song_id` checked on the pending inserts. -/
def featuredInsertsOK (tbl ins : List FeaturedMusic) : Bool :=
  insertKeysOK (tbl.map FeaturedMusic.song_id) (ins.map FeaturedMusic.song_id)

/-- Last session write of a position keyed by child id: repeated attribute
assignments on the same loaded row overwrite each other, and `db.commit()`
persists the final value. -/
def lastWrite : List (Nat × Int) → Nat → Option Int
  | [], _ => none
  | w :: ws, s =>
    match lastWrite ws s with
    | some p => some p
    | none => if w.1 == s then some w.2 else none

/-- One element of `ReorderRequest.items` (`app/schemas/artist.py`,
`ItemOrder`): a child id with its requested position. -/
structure ItemOrder where
  id : Nat
  position : Int
deriving Repr, DecidableEq

/-- Commit of the session's accumulated `display_order` writes on the
loaded artist-song order rows: the last write per child id wins. -/
def applySongWrites (ws : List (Nat × Int)) (a : Nat) (e : ArtistSongOrder) :
    ArtistSongOrder :=
  if e.artist_id == a then
    match lastWrite ws e.song_id with
    | some p => { e with display_order := p }
    | none => e
  else e

/-- Commit of the session's accumulated writes on the loaded artist-video
order rows. -/
def applyVideoWrites (ws : List (Nat × Int)) (a : Nat) (e : ArtistVideoOrder) :
    ArtistVideoOrder :=
  if e.artist_id == a then
    match lastWrite ws e.video_id with
    | some p => { e with display_order := p }
    | none => e
  else e

/-- Commit of the session's accumulated writes on the loaded featured
rows. -/
def applyFeaturedWrites (ws : List (Nat × Int)) (e : FeaturedMusic) :
    FeaturedMusic :=
  match lastWrite ws e.song_id with
  | some p => { e with position := p }
  | none => e

/-- The per-song payload of the bulk `admin-add-song` form that the
ordering subsystem consumes: the id of the artist the new song is linked
to (`SongCreate.artist_id`, validated against `artists` by the route). -/
structure SongCreate where
  artist_id : Nat
deriving Repr, DecidableEq

/-- The per-video payload of `admin-add-video` consumed by the ordering
subsystem (`video_data["artist_id"]`). -/
structure VideoCreate where
  artist_id : Nat
deriving Repr, DecidableEq

/-- `autoincrement` primary-key allocation: the next id is one past the
largest id in use. -/
def nextId (ids : List Nat) : Nat :=
  ids.foldr (fun i m => max i m) 0 + 1

/-- The session's position writes accumulated by the song-reorder loop:
one write per item whose child already has a committed order entry. -/
def songReorderWrites (orders : List ArtistSongOrder) (a : Nat)
    (items : List ItemOrder) : List (Nat × Int) :=
  (items.filter (fun it => hasSongEntry orders a it.id)).map
    (fun it => (it.id, it.position))

/-- The session's pending inserts accumulated by the song-reorder loop: one
fresh entry per item occurrence whose child has no committed order entry
(`autoflush=False` keeps each such insert invisible to the later queries of
the same loop). -/
def songReorderInserts (orders : List ArtistSongOrder) (a : Nat)
    (items : List ItemOrder) : List ArtistSongOrder :=
  (items.filter (fun it => !(hasSongEntry orders a it.id))).map
    (fun it =>
      ({ artist_id := a, song_id := it.id, display_order := it.position } :
        ArtistSongOrder))

/-- Session position writes of the video-reorder loop. -/
def videoReorderWrites (orders : List ArtistVideoOrder) (a : Nat)
    (items : List ItemOrder) : List (Nat × Int) :=
  (items.filter (fun it => hasVideoEntry orders a it.id)).map
    (fun it => (it.id, it.position))

/-- Session pending inserts of the video-reorder loop. -/
def videoReorderInserts (orders : List ArtistVideoOrder) (a : Nat)
    (items : List ItemOrder) : List ArtistVideoOrder :=
  (items.filter (fun it => !(hasVideoEntry orders a it.id))).map
    (fun it =>
      ({ artist_id := a, video_id := it.id, display_order := it.position } :
        ArtistVideoOrder))

/-- `PATCH /artists/{artist_id}/admin-reorder-songs`
(`routes/artist.py`, `reorder_artist_songs`, lines 871-962).
Validation first: 404 if the artist is missing, then 400 naming the first
item whose song does not exist with `Song.artist_id == artist_id`.  The
write loop then, per item, overwrites the loaded order entry's
`display_order` when the committed store has one for `(artist_id, item.id)`
(repeated writes to the same entry overwrite, last wins) and otherwise
`db.add`s a fresh entry — invisible to later queries because
`autoflush=False`, so a missing child listed twice yields two pending
inserts.  The single `db.commit()` applies updates and inserts, subject to
`unique_artist_song`; on violation everything rolls back (500).  Success
returns the raw `len(reorder_data.items)` reported in the message. -/
def reorder_artist_songs (db : DB) (artist_id : Nat) (items : List ItemOrder) :
    DB × Except Err Nat :=
  if !(db.artists.any (fun ar => ar.id == artist_id)) then
    (db, .error (.notFound artist_id))
  else
    match items.find? (fun it =>
        !(db.songs.any (fun s => s.id == it.id && s.artist_id == some artist_id))) with
    | some it => (db, .error (.invalidReference it.id))
    | none =>
      let ws := songReorderWrites db.artist_song_orders artist_id items
      let ins := songReorderInserts db.artist_song_orders artist_id items
      if songInsertsOK db.artist_song_orders ins then
        ({ db with artist_song_orders :=
            (db.artist_song_orders.map (applySongWrites ws artist_id)) ++ ins },
         .ok items.length)
      else
        (db, .error .storageFailure)

/-- `PATCH /artists/{artist_id}/admin-reorder-videos`
(`routes/artist.py`, `reorder_artist_videos`, lines 965-1056), identical in
structure to the song reorder. -/
def reorder_artist_videos (db : DB) (artist_id : Nat) (items : List ItemOrder) :
    DB × Except Err Nat :=
  if !(db.artists.any (fun ar => ar.id == artist_id)) then
    (db, .error (.notFound artist_id))
  else
    match items.find? (fun it =>
        !(db.videos.any (fun v => v.id == it.id && v.artist_id == some artist_id))) with
    | some it => (db, .error (.invalidReference it.id))
    | none =>
      let ws := videoReorderWrites db.artist_video_orders artist_id items
      let ins := videoReorderInserts db.artist_video_orders artist_id items
      if videoInsertsOK db.artist_video_orders ins then
        ({ db with artist_video_orders :=
            (db.artist_video_orders.map (applyVideoWrites ws artist_id)) ++ ins },
         .ok items.length)
      else
        (db, .error .storageFailure)

/-- `PATCH /new-music/admin-reorder`
(`routes/featured_music.py`, `reorder_featured_music`, lines 224-290).
The loop raises 404 at the first song with no featured entry; the changes
written to loaded entries before that point are discarded with the
uncommitted session, so the committed store is untouched on error.  There
is no create-if-missing branch.  On success the accumulated position
writes (last wins) are committed and the message reports
`len(reorder_data.positions)`. -/
def reorder_featured_music (db : DB) (positions : List (Nat × Int)) :
    DB × Except Err Nat :=
  match positions.find? (fun w => !(hasFeaturedEntry db.featured_music w.1)) with
  | some w => (db, .error (.notFound w.1))
  | none =>
    ({ db with featured_music :=
        db.featured_music.map (applyFeaturedWrites positions) }, .ok positions.length)

/-- `POST /new-music/admin-add`
(`routes/featured_music.py`, `add_to_featured_music`, lines 97-166):
404 if the song row is missing, 400 Conflict if a featured entry for it
already exists, otherwise insert at the allocator's next position and
commit; returns the assigned position. -/
def add_to_featured_music (db : DB) (song_id : Nat) : DB × Except Err Int :=
  if !(db.songs.any (fun s => s.id == song_id)) then
    (db, .error (.notFound song_id))
  else if hasFeaturedEntry db.featured_music song_id then
    (db, .error .conflict)
  else
    let next := allocate_next_position_featured db.featured_music
    if featuredInsertsOK db.featured_music [{ song_id := song_id, position := next }] then
      ({ db with featured_music :=
          db.featured_music ++ [{ song_id := song_id, position := next }] }, .ok next)
    else
      (db, .error .storageFailure)

/-- `DELETE /new-music/admin-remove/{song_id}`
(`routes/featured_music.py`, `remove_from_featured_music`, lines 173-217):
404 when no featured entry for the song exists, otherwise `db.delete` the
row returned by `.first()` and commit. -/
def remove_from_featured_music (db : DB) (song_id : Nat) : DB × Except Err Unit :=
  if hasFeaturedEntry db.featured_music song_id then
    ({ db with featured_music :=
        db.featured_music.eraseP (fun e => e.song_id == song_id) }, .ok ())
  else
    (db, .error (.notFound song_id))

/-- The song rows phase 1 of a bulk create would commit (reached only in
the intended model, `add_song_intended`): `autoincrement` ids assigned
sequentially from the next free id, each linked to its spec's artist. -/
def createdSongs (db : DB) (specs : List SongCreate) : List Song :=
  specs.enum.map (fun p =>
    { id := nextId (db.songs.map (fun s => s.id)) + p.1,
      artist_id := some p.2.artist_id })

/-- The video rows committed by phase 1 of a bulk create. -/
def createdVideos (db : DB) (specs : List VideoCreate) : List Video :=
  specs.enum.map (fun p =>
    { id := nextId (db.videos.map (fun v => v.id)) + p.1,
      artist_id := some p.2.artist_id })

/-- The auto-attach step written at `routes/song.py` lines 184-199
(reached only in the intended model, `add_song_intended`): for each created
song, allocate against the committed order store — none of the entries
`db.add`-ed for earlier songs of the batch are visible, since
`autoflush=False` keeps them unflushed — and build the pending entry. -/
def attachSongOrderEntries (orders : List ArtistSongOrder)
    (created : List Song) : List ArtistSongOrder :=
  created.filterMap (fun s =>
    s.artist_id.map (fun a =>
      { artist_id := a, song_id := s.id,
        display_order := allocate_next_position_songs orders a }))

/-- The auto-attach step of `add_videos` (`routes/video.py`, lines 195-210). -/
def attachVideoOrderEntries (orders : List ArtistVideoOrder)
    (created : List Video) : List ArtistVideoOrder :=
  created.filterMap (fun v =>
    v.artist_id.map (fun a =>
      { artist_id := a, video_id := v.id,
        display_order := allocate_next_position_videos orders a }))

/-- `POST /songs/admin-add-song` (`routes/song.py`, `add_song`,
lines 30-216) as the source executes.  STEP 1 rejects an empty or
malformed batch with 400 before anything else runs (lines 84-103).  Every
request that survives STEP 1 then crashes: the validation loop at line 121
reads the local variable `song` (`artist_id = song.artist_id`) before its
first binding at line 177, raising `UnboundLocalError` (lines 141 and 164
read it too, and `ArtistSongOrder`, used at line 186, is never imported in
`song.py`).  The unhandled exception surfaces as a 500 before any `db.add`
or `db.commit`, and `get_db` closes the session with nothing committed:
the route can never create a song row or attach an order entry, so the
committed store is unchanged by every call. -/
def add_song (db : DB) (specs : List SongCreate) :
    DB × Except Err (List Nat) :=
  if specs.isEmpty then
    (db, .error .badRequest)
  else
    (db, .error .storageFailure)

/-- The two-phase create that the docstring and STEP comments of
`routes/song.py` `add_song` (lines 30-216) describe, i.e. the handler as
it would execute with the line-121/141/164 `song`-vs-`song_data` slip
repaired (the mirror image of the working `add_videos` below).  400 on an
empty batch or a missing artist.  Phase 1 `db.commit()`s the new song rows
(line 174, "Commit to get song IDs").  Phase 2 builds one order entry per
created song at the allocator's position and `db.commit()`s them
(line 202).  The `except` handler only reaches `db.rollback()` after the
second commit fails, so the rows committed in phase 1 stay committed;
`fail2` injects such a failure.  The operation model (`Op` / `applyOp`)
uses this function rather than the always-failing `add_song`: it is a
strict over-approximation that only adds transitions, so the store
invariants proved over `Op` also cover the real handler, whose database
effect is the identity. -/
def add_song_intended (db : DB) (specs : List SongCreate) (fail2 : Bool) :
    DB × Except Err (List Nat) :=
  if specs.isEmpty then
    (db, .error .badRequest)
  else if !(specs.all (fun sp => db.artists.any (fun ar => ar.id == sp.artist_id))) then
    (db, .error .badRequest)
  else
    let created := createdSongs db specs
    let db1 : DB := { db with songs := db.songs ++ created }
    let entries := attachSongOrderEntries db1.artist_song_orders created
    if fail2 then
      (db1, .error .storageFailure)
    else if songInsertsOK db1.artist_song_orders entries then
      ({ db1 with artist_song_orders := db1.artist_song_orders ++ entries },
       .ok (created.map (fun s => s.id)))
    else
      (db1, .error .storageFailure)

/-- `POST /videos/admin-add-video` (`routes/video.py`, `add_videos`,
lines 40-223), the same two-phase shape: video rows committed first
(line 185), order entries committed second (line 213), rollback reaching
only the second transaction. -/
def add_videos (db : DB) (specs : List VideoCreate) (fail2 : Bool) :
    DB × Except Err (List Nat) :=
  if specs.isEmpty then
    (db, .error .badRequest)
  else if !(specs.all (fun sp => db.artists.any (fun ar => ar.id == sp.artist_id))) then
    (db, .error .badRequest)
  else
    let created := createdVideos db specs
    let db1 : DB := { db with videos := db.videos ++ created }
    let entries := attachVideoOrderEntries db1.artist_video_orders created
    if fail2 then
      (db1, .error .storageFailure)
    else if videoInsertsOK db1.artist_video_orders entries then
      ({ db1 with artist_video_orders := db1.artist_video_orders ++ entries },
       .ok (created.map (fun v => v.id)))
    else
      (db1, .error .storageFailure)

/-- `DELETE /artists/admin-delete-artist/{artist_id}`
(`routes/artist.py`, `delete_artist`, lines 650-758): 404 if the artist is
missing; otherwise the transaction deletes every song and video whose
`artist_id` is the artist's, then the artist row, and the
`ON DELETE CASCADE` foreign keys declared on the junction tables remove
every order entry referencing a deleted artist, song or video. -/
def delete_artist (db : DB) (artist_id : Nat) : DB × Except Err Unit :=
  if !(db.artists.any (fun ar => ar.id == artist_id)) then
    (db, .error (.notFound artist_id))
  else
    let deletedSongs := (db.songs.filter (fun s => s.artist_id == some artist_id)).map
      (fun s => s.id)
    let deletedVideos := (db.videos.filter (fun v => v.artist_id == some artist_id)).map
      (fun v => v.id)
    ({ artists := db.artists.filter (fun ar => !(ar.id == artist_id)),
       songs := db.songs.filter (fun s => !(s.artist_id == some artist_id)),
       videos := db.videos.filter (fun v => !(v.artist_id == some artist_id)),
       artist_song_orders := db.artist_song_orders.filter (fun e =>
         !(e.artist_id == artist_id) && !(deletedSongs.contains e.song_id)),
       artist_video_orders := db.artist_video_orders.filter (fun e =>
         !(e.artist_id == artist_id) && !(deletedVideos.contains e.video_id)),
       featured_music := db.featured_music.filter (fun e =>
         !(deletedSongs.contains e.song_id)) }, .ok ())

/-- `DELETE /songs/admin-delete-song/{song_id}` (`routes/song.py`,
`delete_song`, lines 359-413): 404 if missing, else delete the row;
`ON DELETE CASCADE` on `artist_song_orders.song_id` and
`featured_music.song_id` removes the dependent order entries. -/
def delete_song (db : DB) (song_id : Nat) : DB × Except Err Unit :=
  if !(db.songs.any (fun s => s.id == song_id)) then
    (db, .error (.notFound song_id))
  else
    ({ db with
       songs := db.songs.filter (fun s => !(s.id == song_id)),
       artist_song_orders := db.artist_song_orders.filter (fun e =>
         !(e.song_id == song_id)),
       featured_music := db.featured_music.filter (fun e =>
         !(e.song_id == song_id)) }, .ok ())

/-- `DELETE /videos/admin-delete-video/{video_id}` (`routes/video.py`,
`delete_video`, lines 351-401), cascading through
`artist_video_orders.video_id`. -/
def delete_video (db : DB) (video_id : Nat) : DB × Except Err Unit :=
  if !(db.videos.any (fun v => v.id == video_id)) then
    (db, .error (.notFound video_id))
  else
    ({ db with
       videos := db.videos.filter (fun v => !(v.id == video_id)),
       artist_video_orders := db.artist_video_orders.filter (fun e =>
         !(e.video_id == video_id)) }, .ok ())

/-- The ownership effect of `PATCH /songs/admin-edit-song/{song_id}`
(`routes/song.py`, `edit_song`, lines 296-308): `newArtist = none` models
the `artist_id = -1` sentinel that clears the link, `some a` the validated
relink; order entries are never touched by this route. -/
def edit_song_artist (db : DB) (song_id : Nat) (newArtist : Option Nat) :
    DB × Except Err Unit :=
  if !(db.songs.any (fun s => s.id == song_id)) then
    (db, .error (.notFound song_id))
  else
    match newArtist with
    | none =>
      ({ db with songs := db.songs.map (fun s =>
          if s.id == song_id then { s with artist_id := none } else s) }, .ok ())
    | some a =>
      if db.artists.any (fun ar => ar.id == a) then
        ({ db with songs := db.songs.map (fun s =>
            if s.id == song_id then { s with artist_id := some a } else s) }, .ok ())
      else
        (db, .error .badRequest)

/-- Comparison used by the ordered read path: `display_order` ascending,
and a child with no order entry (SQL `NULL`, Postgres default `NULLS LAST`
under `ASC`) after every child that has one. -/
def posLe : Option Int → Option Int → Prop
  | some p, some q => p ≤ q
  | some _, none => True
  | none, some _ => False
  | none, none => True

instance : DecidableRel posLe := fun a b => by
  cases a <;> cases b <;> simp only [posLe] <;> infer_instance

instance : IsTotal (Option Int) posLe where
  total := by
    intro a b
    cases a with
    | none =>
      cases b with
      | none => exact Or.inl trivial
      | some q => exact Or.inr trivial
    | some p =>
      cases b with
      | none => exact Or.inl trivial
      | some q => exact Int.le_total p q

instance : IsTrans (Option Int) posLe where
  trans := by
    intro a b c hab hbc
    cases a with
    | none =>
      cases b with
      | none => exact hbc
      | some q => exact hab.elim
    | some p =>
      cases c with
      | none => trivial
      | some r =>
        cases b with
        | none => exact hbc.elim
        | some q => exact le_trans hab hbc

/-- The song half of `GET /artists/{artist_id}` (`routes/artist.py`,
`get_artist_by_id`, lines 566-591): the songs filtered by
`Song.artist_id == artist_id`, outer-joined on
`(Song.id == ArtistSongOrder.song_id) & (ArtistSongOrder.artist_id ==
artist_id)` to their nullable `display_order`, ordered by
`display_order.asc()` (nulls last). -/
def get_artist_songs_with_order (db : DB) (artist_id : Nat) :
    List (Song × Option Int) :=
  List.insertionSort (fun x y => posLe x.2 y.2)
    ((db.songs.filter (fun s => s.artist_id == some artist_id)).map (fun s =>
      (s, (db.artist_song_orders.find? (fun e =>
        e.song_id == s.id && e.artist_id == artist_id)).map
          (fun e => e.display_order))))

/-- The video half of `GET /artists/{artist_id}` (lines 599-624). -/
def get_artist_videos_with_order (db : DB) (artist_id : Nat) :
    List (Video × Option Int) :=
  List.insertionSort (fun x y => posLe x.2 y.2)
    ((db.videos.filter (fun v => v.artist_id == some artist_id)).map (fun v =>
      (v, (db.artist_video_orders.find? (fun e =>
        e.video_id == v.id && e.artist_id == artist_id)).map
          (fun e => e.display_order))))

/-- `GET /artists/{artist_id}` (`routes/artist.py`, `get_artist_by_id`,
lines 515-646): 404 when the artist is missing, otherwise the ordered song
and video sequences. -/
def get_artist_by_id (db : DB) (artist_id : Nat) :
    Except Err (List (Song × Option Int) × List (Video × Option Int)) :=
  if db.artists.any (fun ar => ar.id == artist_id) then
    .ok (get_artist_songs_with_order db artist_id,
         get_artist_videos_with_order db artist_id)
  else
    .error (.notFound artist_id)

/-- One request against the ordering subsystem. -/
inductive Op where
  | addSongs (specs : List SongCreate) (fail2 : Bool)
  | addVideos (specs : List VideoCreate) (fail2 : Bool)
  | addFeatured (song_id : Nat)
  | removeFeatured (song_id : Nat)
  | reorderSongs (artist_id : Nat) (items : List ItemOrder)
  | reorderVideos (artist_id : Nat) (items : List ItemOrder)
  | reorderFeatured (positions : List (Nat × Int))
  | deleteArtist (artist_id : Nat)
  | deleteSong (song_id : Nat)
  | deleteVideo (video_id : Nat)
  | editSongArtist (song_id : Nat) (newArtist : Option Nat)
deriving Repr, DecidableEq

/-- The committed state left behind by a request, whether it succeeded or
was rejected. -/
def applyOp (db : DB) : Op → DB
  | .addSongs specs fail2 => (add_song_intended db specs fail2).1
  | .addVideos specs fail2 => (add_videos db specs fail2).1
  | .addFeatured s => (add_to_featured_music db s).1
  | .removeFeatured s => (remove_from_featured_music db s).1
  | .reorderSongs a items => (reorder_artist_songs db a items).1
  | .reorderVideos a items => (reorder_artist_videos db a items).1
  | .reorderFeatured ps => (reorder_featured_music db ps).1
  | .deleteArtist a => (delete_artist db a).1
  | .deleteSong s => (delete_song db s).1
  | .deleteVideo v => (delete_video db v).1
  | .editSongArtist s na => (edit_song_artist db s na).1

/-- The uniqueness invariant of the committed order-entry store: no
`(artist_id, song_id)` pair, `(artist_id, video_id)` pair, or featured
`song_id` appears in two rows. -/
def uniqueKeys (db : DB) : Prop :=
  (db.artist_song_orders.map ArtistSongOrder.key).Nodup ∧
  (db.artist_video_orders.map ArtistVideoOrder.key).Nodup ∧
  (db.featured_music.map FeaturedMusic.song_id).Nodup

instance (db : DB) : Decidable (uniqueKeys db) := by
  unfold uniqueKeys
  infer_instance

/-- Referential integrity enforced by the foreign keys on the junction
tables: every order entry references an existing artist and child row. -/
def refIntegrity (db : DB) : Prop :=
  (∀ e ∈ db.artist_song_orders,
    (db.artists.any (fun ar => ar.id == e.artist_id)) = true ∧
    (db.songs.any (fun s => s.id == e.song_id)) = true) ∧
  (∀ e ∈ db.artist_video_orders,
    (db.artists.any (fun ar => ar.id == e.artist_id)) = true ∧
    (db.videos.any (fun v => v.id == e.video_id)) = true) ∧
  (∀ e ∈ db.featured_music,
    (db.songs.any (fun s => s.id == e.song_id)) = true)

instance (db : DB) : Decidable (refIntegrity db) := by
  unfold refIntegrity
  infer_instance

/-! Auxiliary lemmas about the storage-layer primitives. -/

theorem insertKeysOK_not_mem_tbl [BEq κ] [LawfulBEq κ] {tbl ks : List κ}
    (h : insertKeysOK tbl ks = true) : ∀ k ∈ ks, k ∉ tbl := by
  induction ks generalizing tbl with
  | nil =>
    intro k hk
    cases hk
  | cons k0 rest ih =>
    intro k hk
    simp only [insertKeysOK, Bool.and_eq_true, Bool.not_eq_true'] at h
    rcases List.mem_cons.mp hk with hk | hk
    · subst hk
      intro hmem
      have : tbl.contains k = true := List.elem_eq_true_of_mem hmem
      rw [h.1] at this
      cases this
    · intro hmem
      exact ih h.2 k hk (List.mem_append_left _ hmem)

theorem insertKeysOK_nodup_ins [BEq κ] [LawfulBEq κ] {tbl ks : List κ}
    (h : insertKeysOK tbl ks = true) : ks.Nodup := by
  induction ks generalizing tbl with
  | nil => exact List.nodup_nil
  | cons k0 rest ih =>
    simp only [insertKeysOK, Bool.and_eq_true] at h
    refine List.nodup_cons.mpr ⟨?_, ih h.2⟩
    intro hmem
    exact insertKeysOK_not_mem_tbl h.2 k0 hmem
      (List.mem_append_right _ (List.mem_singleton.mpr rfl))

theorem insertKeysOK_append_nodup [BEq κ] [LawfulBEq κ] {tbl ks : List κ}
    (hn : tbl.Nodup) (h : insertKeysOK tbl ks = true) : (tbl ++ ks).Nodup := by
  induction ks generalizing tbl with
  | nil => simpa using hn
  | cons k0 rest ih =>
    simp only [insertKeysOK, Bool.and_eq_true, Bool.not_eq_true'] at h
    have hk0 : k0 ∉ tbl := by
      intro hmem
      have : tbl.contains k0 = true := List.elem_eq_true_of_mem hmem
      rw [h.1] at this
      cases this
    have h1 : (tbl ++ [k0]).Nodup := by
      refine List.nodup_append.mpr ⟨hn, List.nodup_singleton k0, ?_⟩
      intro x hx hx0
      rw [List.mem_singleton.mp hx0] at hx
      exact hk0 hx
    have h2 := ih h1 h.2
    simpa [List.append_assoc] using h2

theorem lastWrite_eq_none_of_forall {ws : List (Nat × Int)} {s : Nat}
    (h : ∀ w ∈ ws, (w.1 == s) = false) : lastWrite ws s = none := by
  induction ws with
  | nil => rfl
  | cons w ws ih =>
    simp only [lastWrite]
    rw [ih (fun w2 hw => h w2 (List.mem_cons_of_mem _ hw))]
    simp [h w (List.mem_cons_self _ _)]

theorem lastWrite_filter {p : Nat × Int → Bool} {ws : List (Nat × Int)} {s : Nat}
    (h : ∀ w ∈ ws, w.1 = s → p w = true) :
    lastWrite (ws.filter p) s = lastWrite ws s := by
  induction ws with
  | nil => rfl
  | cons w ws ih =>
    have hrest : ∀ w2 ∈ ws, w2.1 = s → p w2 = true :=
      fun w2 hw => h w2 (List.mem_cons_of_mem _ hw)
    by_cases hp : p w = true
    · rw [List.filter_cons_of_pos hp]
      simp only [lastWrite]
      rw [ih hrest]
    · rw [List.filter_cons_of_neg hp]
      rw [ih hrest]
      simp only [lastWrite]
      cases hlw : lastWrite ws s with
      | some q => rfl
      | none =>
        have hks : (w.1 == s) = false := by
          by_cases hk : w.1 = s
          · exact absurd (h w (List.mem_cons_self _ _) hk) hp
          · exact beq_eq_false_iff_ne.mpr hk
        simp [hks]

theorem lastWrite_eq_of_nodup {ws : List (Nat × Int)} {s : Nat} {p : Int}
    (hnd : (ws.map Prod.fst).Nodup) (hmem : (s, p) ∈ ws) :
    lastWrite ws s = some p := by
  induction ws with
  | nil => cases hmem
  | cons w rest ih =>
    rw [List.map_cons, List.nodup_cons] at hnd
    rcases List.mem_cons.mp hmem with hw | hw
    · have hnone : lastWrite rest s = none := by
        apply lastWrite_eq_none_of_forall
        intro w2 hw2
        apply beq_eq_false_iff_ne.mpr
        intro hcontra
        have hkey : w.1 = s := by rw [← hw]
        have hgoal : w.1 ∈ List.map Prod.fst rest := by
          rw [hkey, ← hcontra]
          exact List.mem_map_of_mem Prod.fst hw2
        exact hnd.1 hgoal
      simp only [lastWrite, hnone]
      rw [← hw]
      simp
    · simp only [lastWrite, ih hnd.2 hw]

theorem maxAgg_spec {l : List Int} {m : Int} (h : maxAgg l = some m) :
    m ∈ l ∧ ∀ x ∈ l, x ≤ m := by
  induction l generalizing m with
  | nil => cases h
  | cons p ps ih =>
    simp only [maxAgg] at h
    cases hps : maxAgg ps with
    | none =>
      rw [hps] at h
      cases h
      have hempty : ps = [] := by
        cases ps with
        | nil => rfl
        | cons q qs =>
          simp only [maxAgg] at hps
          cases hqs : maxAgg qs with
          | none =>
            rw [hqs] at hps
            simp at hps
          | some m1 =>
            rw [hqs] at hps
            simp at hps
      subst hempty
      exact ⟨List.mem_singleton.mpr rfl, by intro x hx; rw [List.mem_singleton.mp hx]⟩
    | some m0 =>
      rw [hps] at h
      cases h
      rcases ih hps with ⟨hm0, hb⟩
      constructor
      · rcases le_total p m0 with hle | hle
        · rw [max_eq_right hle]
          exact List.mem_cons_of_mem _ hm0
        · rw [max_eq_left hle]
          exact List.mem_cons_self _ _
      · intro x hx
        rcases List.mem_cons.mp hx with hx | hx
        · rw [hx]
          exact le_max_left _ _
        · exact le_trans (hb x hx) (le_max_right _ _)

theorem maxAgg_isSome_of_ne_nil {l : List Int} (h : l ≠ []) :
    ∃ m, maxAgg l = some m := by
  cases l with
  | nil => exact absurd rfl h
  | cons p ps =>
    simp only [maxAgg]
    cases maxAgg ps with
    | none => exact ⟨p, rfl⟩
    | some m0 => exact ⟨max p m0, rfl⟩

theorem maxAgg_of_isMax {l : List Int} {m : Int} (hm : m ∈ l)
    (hb : ∀ x ∈ l, x ≤ m) : maxAgg l = some m := by
  rcases maxAgg_isSome_of_ne_nil (List.ne_nil_of_mem hm) with ⟨m0, h0⟩
  rcases maxAgg_spec h0 with ⟨hm0, hb0⟩
  have : m0 = m := le_antisymm (hb m0 hm0) (hb0 m hm)
  rw [h0, this]

theorem le_foldr_max {ids : List Nat} {i : Nat} (h : i ∈ ids) :
    i ≤ ids.foldr (fun x m => max x m) 0 := by
  induction ids with
  | nil => cases h
  | cons j js ih =>
    rcases List.mem_cons.mp h with h | h
    · rw [h]
      exact le_max_left _ _
    · exact le_trans (ih h) (le_max_right _ _)

theorem lt_nextId {ids : List Nat} {i : Nat} (h : i ∈ ids) : i < nextId ids := by
  unfold nextId
  exact Nat.lt_succ_of_le (le_foldr_max h)

theorem applySongWrites_artist_id (ws : List (Nat × Int)) (a : Nat)
    (e : ArtistSongOrder) : (applySongWrites ws a e).artist_id = e.artist_id := by
  unfold applySongWrites
  split
  · split
    all_goals rfl
  · rfl

theorem applySongWrites_song_id (ws : List (Nat × Int)) (a : Nat)
    (e : ArtistSongOrder) : (applySongWrites ws a e).song_id = e.song_id := by
  unfold applySongWrites
  split
  · split
    all_goals rfl
  · rfl

theorem applyVideoWrites_artist_id (ws : List (Nat × Int)) (a : Nat)
    (e : ArtistVideoOrder) : (applyVideoWrites ws a e).artist_id = e.artist_id := by
  unfold applyVideoWrites
  split
  · split
    all_goals rfl
  · rfl

theorem applyVideoWrites_video_id (ws : List (Nat × Int)) (a : Nat)
    (e : ArtistVideoOrder) : (applyVideoWrites ws a e).video_id = e.video_id := by
  unfold applyVideoWrites
  split
  · split
    all_goals rfl
  · rfl

theorem applyFeaturedWrites_song_id (ws : List (Nat × Int))
    (e : FeaturedMusic) : (applyFeaturedWrites ws e).song_id = e.song_id := by
  unfold applyFeaturedWrites
  split
  all_goals rfl

theorem applySongWrites_key (ws : List (Nat × Int)) (a : Nat)
    (e : ArtistSongOrder) : (applySongWrites ws a e).key = e.key := by
  unfold ArtistSongOrder.key
  rw [applySongWrites_artist_id, applySongWrites_song_id]

theorem applyVideoWrites_key (ws : List (Nat × Int)) (a : Nat)
    (e : ArtistVideoOrder) : (applyVideoWrites ws a e).key = e.key := by
  unfold ArtistVideoOrder.key
  rw [applyVideoWrites_artist_id, applyVideoWrites_video_id]

theorem map_key_applySongWrites (ws : List (Nat × Int)) (a : Nat)
    (tbl : List ArtistSongOrder) :
    (tbl.map (applySongWrites ws a)).map ArtistSongOrder.key =
      tbl.map ArtistSongOrder.key := by
  rw [List.map_map]
  apply List.map_congr_left
  intro e _
  exact applySongWrites_key ws a e

theorem map_key_applyVideoWrites (ws : List (Nat × Int)) (a : Nat)
    (tbl : List ArtistVideoOrder) :
    (tbl.map (applyVideoWrites ws a)).map ArtistVideoOrder.key =
      tbl.map ArtistVideoOrder.key := by
  rw [List.map_map]
  apply List.map_congr_left
  intro e _
  exact applyVideoWrites_key ws a e

theorem map_songid_applyFeaturedWrites (ws : List (Nat × Int))
    (tbl : List FeaturedMusic) :
    (tbl.map (applyFeaturedWrites ws)).map FeaturedMusic.song_id =
      tbl.map FeaturedMusic.song_id := by
  rw [List.map_map]
  apply List.map_congr_left
  intro e _
  exact applyFeaturedWrites_song_id ws e

theorem hasSongEntry_iff {tbl : List ArtistSongOrder} {a s : Nat} :
    hasSongEntry tbl a s = true ↔ ∃ e ∈ tbl, e.artist_id = a ∧ e.song_id = s := by
  simp [hasSongEntry, List.any_eq_true, Bool.and_eq_true, beq_iff_eq]

theorem hasVideoEntry_iff {tbl : List ArtistVideoOrder} {a v : Nat} :
    hasVideoEntry tbl a v = true ↔ ∃ e ∈ tbl, e.artist_id = a ∧ e.video_id = v := by
  simp [hasVideoEntry, List.any_eq_true, Bool.and_eq_true, beq_iff_eq]

theorem hasFeaturedEntry_iff {tbl : List FeaturedMusic} {s : Nat} :
    hasFeaturedEntry tbl s = true ↔ ∃ e ∈ tbl, e.song_id = s := by
  simp [hasFeaturedEntry, List.any_eq_true, beq_iff_eq]

theorem hasSongEntry_append (t1 t2 : List ArtistSongOrder) (a s : Nat) :
    hasSongEntry (t1 ++ t2) a s = (hasSongEntry t1 a s || hasSongEntry t2 a s) := by
  simp [hasSongEntry, List.any_append]

theorem hasVideoEntry_append (t1 t2 : List ArtistVideoOrder) (a v : Nat) :
    hasVideoEntry (t1 ++ t2) a v = (hasVideoEntry t1 a v || hasVideoEntry t2 a v) := by
  simp [hasVideoEntry, List.any_append]

theorem hasSongEntry_map_applySongWrites (ws : List (Nat × Int)) (a0 : Nat)
    (tbl : List ArtistSongOrder) (a s : Nat) :
    hasSongEntry (tbl.map (applySongWrites ws a0)) a s = hasSongEntry tbl a s := by
  induction tbl with
  | nil => rfl
  | cons e tbl ih =>
    simp only [List.map_cons, hasSongEntry, List.any_cons]
    rw [applySongWrites_artist_id, applySongWrites_song_id]
    have ih2 : (tbl.map (applySongWrites ws a0)).any
        (fun e2 => e2.artist_id == a && e2.song_id == s) =
        tbl.any (fun e2 => e2.artist_id == a && e2.song_id == s) := ih
    rw [ih2]

theorem hasVideoEntry_map_applyVideoWrites (ws : List (Nat × Int)) (a0 : Nat)
    (tbl : List ArtistVideoOrder) (a v : Nat) :
    hasVideoEntry (tbl.map (applyVideoWrites ws a0)) a v = hasVideoEntry tbl a v := by
  induction tbl with
  | nil => rfl
  | cons e tbl ih =>
    simp only [List.map_cons, hasVideoEntry, List.any_cons]
    rw [applyVideoWrites_artist_id, applyVideoWrites_video_id]
    have ih2 : (tbl.map (applyVideoWrites ws a0)).any
        (fun e2 => e2.artist_id == a && e2.video_id == v) =
        tbl.any (fun e2 => e2.artist_id == a && e2.video_id == v) := ih
    rw [ih2]

theorem hasFeaturedEntry_map_applyFeaturedWrites (ws : List (Nat × Int))
    (tbl : List FeaturedMusic) (s : Nat) :
    hasFeaturedEntry (tbl.map (applyFeaturedWrites ws)) s = hasFeaturedEntry tbl s := by
  induction tbl with
  | nil => rfl
  | cons e tbl ih =>
    simp only [List.map_cons, hasFeaturedEntry, List.any_cons]
    rw [applyFeaturedWrites_song_id]
    have ih2 : (tbl.map (applyFeaturedWrites ws)).any (fun e2 => e2.song_id == s) =
        tbl.any (fun e2 => e2.song_id == s) := ih
    rw [ih2]

theorem nodup_map_filter {α κ : Type} {f : α → κ} (p : α → Bool) {l : List α}
    (h : (l.map f).Nodup) : ((l.filter p).map f).Nodup :=
  List.Nodup.sublist (List.Sublist.map f (List.filter_sublist l)) h

theorem nodup_map_eraseP {α κ : Type} {f : α → κ} (p : α → Bool) {l : List α}
    (h : (l.map f).Nodup) : ((l.eraseP p).map f).Nodup :=
  List.Nodup.sublist (List.Sublist.map f (List.eraseP_sublist l)) h

theorem nodup_append_inserts {α κ : Type} [BEq κ] [LawfulBEq κ] {f : α → κ}
    {tbl ins : List α} (hn : (tbl.map f).Nodup)
    (h : insertKeysOK (tbl.map f) (ins.map f) = true) :
    ((tbl ++ ins).map f).Nodup := by
  rw [List.map_append]
  exact insertKeysOK_append_nodup hn h

/-! Preservation of the committed-store uniqueness invariant by every
operation of the subsystem. -/

theorem uniqueKeys_add_song_intended (db : DB) (specs : List SongCreate) (f2 : Bool)
    (h : uniqueKeys db) : uniqueKeys (add_song_intended db specs f2).1 := by
  unfold add_song_intended
  dsimp only
  split
  · exact h
  · split
    · exact h
    · split
      · exact h
      · split
        · exact ⟨nodup_append_inserts h.1 (by assumption), h.2.1, h.2.2⟩
        · exact h

theorem uniqueKeys_add_videos (db : DB) (specs : List VideoCreate) (f2 : Bool)
    (h : uniqueKeys db) : uniqueKeys (add_videos db specs f2).1 := by
  unfold add_videos
  dsimp only
  split
  · exact h
  · split
    · exact h
    · split
      · exact h
      · split
        · exact ⟨h.1, nodup_append_inserts h.2.1 (by assumption), h.2.2⟩
        · exact h

theorem uniqueKeys_add_featured (db : DB) (s : Nat)
    (h : uniqueKeys db) : uniqueKeys (add_to_featured_music db s).1 := by
  unfold add_to_featured_music
  dsimp only
  split
  · exact h
  · split
    · exact h
    · split
      · exact ⟨h.1, h.2.1, nodup_append_inserts h.2.2 (by assumption)⟩
      · exact h

theorem uniqueKeys_remove_featured (db : DB) (s : Nat)
    (h : uniqueKeys db) : uniqueKeys (remove_from_featured_music db s).1 := by
  unfold remove_from_featured_music
  split
  · exact ⟨h.1, h.2.1, nodup_map_eraseP _ h.2.2⟩
  · exact h

theorem uniqueKeys_reorder_songs (db : DB) (a : Nat) (items : List ItemOrder)
    (h : uniqueKeys db) : uniqueKeys (reorder_artist_songs db a items).1 := by
  unfold reorder_artist_songs
  dsimp only
  split
  · exact h
  · split
    · exact h
    · split
      · refine ⟨?_, h.2.1, h.2.2⟩
        rw [List.map_append, map_key_applySongWrites]
        exact insertKeysOK_append_nodup h.1 (by assumption)
      · exact h

theorem uniqueKeys_reorder_videos (db : DB) (a : Nat) (items : List ItemOrder)
    (h : uniqueKeys db) : uniqueKeys (reorder_artist_videos db a items).1 := by
  unfold reorder_artist_videos
  dsimp only
  split
  · exact h
  · split
    · exact h
    · split
      · refine ⟨h.1, ?_, h.2.2⟩
        rw [List.map_append, map_key_applyVideoWrites]
        exact insertKeysOK_append_nodup h.2.1 (by assumption)
      · exact h

theorem uniqueKeys_reorder_featured (db : DB) (ps : List (Nat × Int))
    (h : uniqueKeys db) : uniqueKeys (reorder_featured_music db ps).1 := by
  unfold reorder_featured_music
  split
  · exact h
  · refine ⟨h.1, h.2.1, ?_⟩
    rw [map_songid_applyFeaturedWrites]
    exact h.2.2

theorem uniqueKeys_delete_artist (db : DB) (a : Nat)
    (h : uniqueKeys db) : uniqueKeys (delete_artist db a).1 := by
  unfold delete_artist
  dsimp only
  split
  · exact h
  · exact ⟨nodup_map_filter _ h.1, nodup_map_filter _ h.2.1, nodup_map_filter _ h.2.2⟩

theorem uniqueKeys_delete_song (db : DB) (s : Nat)
    (h : uniqueKeys db) : uniqueKeys (delete_song db s).1 := by
  unfold delete_song
  split
  · exact h
  · exact ⟨nodup_map_filter _ h.1, h.2.1, nodup_map_filter _ h.2.2⟩

theorem uniqueKeys_delete_video (db : DB) (v : Nat)
    (h : uniqueKeys db) : uniqueKeys (delete_video db v).1 := by
  unfold delete_video
  split
  · exact h
  · exact ⟨h.1, nodup_map_filter _ h.2.1, h.2.2⟩

theorem uniqueKeys_edit_song (db : DB) (s : Nat) (na : Option Nat)
    (h : uniqueKeys db) : uniqueKeys (edit_song_artist db s na).1 := by
  unfold edit_song_artist
  split
  · exact h
  · split
    · exact h
    · split
      · exact h
      · exact h

theorem insertKeysOK_of_nodup_disjoint [BEq κ] [LawfulBEq κ] {tbl ks : List κ}
    (hnd : ks.Nodup) (hdis : ∀ k ∈ ks, k ∉ tbl) : insertKeysOK tbl ks = true := by
  induction ks generalizing tbl with
  | nil => rfl
  | cons k rest ih =>
    rw [List.nodup_cons] at hnd
    simp only [insertKeysOK, Bool.and_eq_true, Bool.not_eq_true']
    refine ⟨?_, ?_⟩
    · cases hc : tbl.contains k with
      | false => rfl
      | true =>
        exact absurd (List.mem_of_elem_eq_true hc) (hdis k (List.mem_cons_self _ _))
    · apply ih hnd.2
      intro k2 hk2 hmem
      rcases List.mem_append.mp hmem with hm | hm
      · exact hdis k2 (List.mem_cons_of_mem _ hk2) hm
      · rw [List.mem_singleton.mp hm] at hk2
        exact hnd.1 hk2

theorem contains_map_songkey (tbl : List ArtistSongOrder) (a s : Nat) :
    ((tbl.map ArtistSongOrder.key).contains (a, s)) = hasSongEntry tbl a s := by
  cases hc : (tbl.map ArtistSongOrder.key).contains (a, s) with
  | true =>
    rcases List.mem_map.mp (List.mem_of_elem_eq_true hc) with ⟨e, he, hke⟩
    unfold ArtistSongOrder.key at hke
    have h1 : e.artist_id = a := congrArg Prod.fst hke
    have h2 : e.song_id = s := congrArg Prod.snd hke
    exact (hasSongEntry_iff.mpr ⟨e, he, h1, h2⟩).symm
  | false =>
    cases hf : hasSongEntry tbl a s with
    | false => rfl
    | true =>
      rcases hasSongEntry_iff.mp hf with ⟨e, he, h1, h2⟩
      have hmem : (a, s) ∈ tbl.map ArtistSongOrder.key := by
        rw [← h1, ← h2]
        exact List.mem_map_of_mem ArtistSongOrder.key he
      have hcontains : ((tbl.map ArtistSongOrder.key).contains (a, s)) = true :=
        List.elem_eq_true_of_mem hmem
      rw [hc] at hcontains
      cases hcontains

theorem contains_map_videokey (tbl : List ArtistVideoOrder) (a v : Nat) :
    ((tbl.map ArtistVideoOrder.key).contains (a, v)) = hasVideoEntry tbl a v := by
  cases hc : (tbl.map ArtistVideoOrder.key).contains (a, v) with
  | true =>
    rcases List.mem_map.mp (List.mem_of_elem_eq_true hc) with ⟨e, he, hke⟩
    unfold ArtistVideoOrder.key at hke
    have h1 : e.artist_id = a := congrArg Prod.fst hke
    have h2 : e.video_id = v := congrArg Prod.snd hke
    exact (hasVideoEntry_iff.mpr ⟨e, he, h1, h2⟩).symm
  | false =>
    cases hf : hasVideoEntry tbl a v with
    | false => rfl
    | true =>
      rcases hasVideoEntry_iff.mp hf with ⟨e, he, h1, h2⟩
      have hmem : (a, v) ∈ tbl.map ArtistVideoOrder.key := by
        rw [← h1, ← h2]
        exact List.mem_map_of_mem ArtistVideoOrder.key he
      have hcontains : ((tbl.map ArtistVideoOrder.key).contains (a, v)) = true :=
        List.elem_eq_true_of_mem hmem
      rw [hc] at hcontains
      cases hcontains

theorem contains_map_songid (tbl : List FeaturedMusic) (s : Nat) :
    ((tbl.map FeaturedMusic.song_id).contains s) = hasFeaturedEntry tbl s := by
  cases hc : (tbl.map FeaturedMusic.song_id).contains s with
  | true =>
    rcases List.mem_map.mp (List.mem_of_elem_eq_true hc) with ⟨e, he, hke⟩
    exact (hasFeaturedEntry_iff.mpr ⟨e, he, hke⟩).symm
  | false =>
    cases hf : hasFeaturedEntry tbl s with
    | false => rfl
    | true =>
      rcases hasFeaturedEntry_iff.mp hf with ⟨e, he, h1⟩
      have hmem : s ∈ tbl.map FeaturedMusic.song_id := by
        rw [← h1]
        exact List.mem_map_of_mem FeaturedMusic.song_id he
      have hcontains : ((tbl.map FeaturedMusic.song_id).contains s) = true :=
        List.elem_eq_true_of_mem hmem
      rw [hc] at hcontains
      cases hcontains

theorem allocate_songs_empty (orders : List ArtistSongOrder) (a : Nat)
    (h : songOrderPositions orders a = []) :
    allocate_next_position_songs orders a = 1 := by
  unfold allocate_next_position_songs
  rw [h]
  rfl

theorem allocate_songs_max (orders : List ArtistSongOrder) (a : Nat) (m : Int)
    (hm : m ∈ songOrderPositions orders a)
    (hb : ∀ p ∈ songOrderPositions orders a, p ≤ m) :
    allocate_next_position_songs orders a = m + 1 := by
  unfold allocate_next_position_songs
  rw [maxAgg_of_isMax hm hb]

theorem allocate_videos_empty (orders : List ArtistVideoOrder) (a : Nat)
    (h : videoOrderPositions orders a = []) :
    allocate_next_position_videos orders a = 1 := by
  unfold allocate_next_position_videos
  rw [h]
  rfl

theorem allocate_videos_max (orders : List ArtistVideoOrder) (a : Nat) (m : Int)
    (hm : m ∈ videoOrderPositions orders a)
    (hb : ∀ p ∈ videoOrderPositions orders a, p ≤ m) :
    allocate_next_position_videos orders a = m + 1 := by
  unfold allocate_next_position_videos
  rw [maxAgg_of_isMax hm hb]

theorem allocate_featured_empty (featured : List FeaturedMusic)
    (h : featured = []) : allocate_next_position_featured featured = 1 := by
  rw [h]
  rfl

theorem allocate_featured_max (featured : List FeaturedMusic) (m : Int)
    (hm : m ∈ featured.map (fun e => e.position))
    (hb : ∀ p ∈ featured.map (fun e => e.position), p ≤ m) :
    allocate_next_position_featured featured = m + 1 := by
  unfold allocate_next_position_featured
  rw [maxAgg_of_isMax hm hb]

theorem hasSongEntry_false_of_scope_empty {orders : List ArtistSongOrder}
    {a : Nat} (h : songOrderPositions orders a = []) (s : Nat) :
    hasSongEntry orders a s = false := by
  unfold songOrderPositions at h
  have hfil : orders.filter (fun e => e.artist_id == a) = [] :=
    List.map_eq_nil_iff.mp h
  have hall := List.filter_eq_nil_iff.mp hfil
  cases hh : hasSongEntry orders a s with
  | false => rfl
  | true =>
    rcases hasSongEntry_iff.mp hh with ⟨e, he, h1, h2⟩
    exact absurd (by simp [h1]) (hall e he)

theorem attach_createdSongs (db : DB) (specs : List SongCreate)
    (orders : List ArtistSongOrder) :
    attachSongOrderEntries orders (createdSongs db specs) =
      specs.enum.map (fun p =>
        ({ artist_id := p.2.artist_id,
           song_id := nextId (db.songs.map (fun s => s.id)) + p.1,
           display_order := allocate_next_position_songs orders p.2.artist_id } :
          ArtistSongOrder)) := by
  unfold attachSongOrderEntries createdSongs
  rw [List.filterMap_map]
  have hfun : ((fun s : Song =>
      Option.map (fun a =>
        ({ artist_id := a, song_id := s.id,
           display_order := allocate_next_position_songs orders a } :
          ArtistSongOrder)) s.artist_id) ∘
      (fun p : Nat × SongCreate =>
        ({ id := nextId (db.songs.map (fun s => s.id)) + p.1,
           artist_id := some p.2.artist_id } : Song))) =
      some ∘ (fun p : Nat × SongCreate =>
        ({ artist_id := p.2.artist_id,
           song_id := nextId (db.songs.map (fun s => s.id)) + p.1,
           display_order := allocate_next_position_songs orders p.2.artist_id } :
          ArtistSongOrder)) := rfl
  rw [hfun, List.filterMap_eq_map]

theorem attach_createdVideos (db : DB) (specs : List VideoCreate)
    (orders : List ArtistVideoOrder) :
    attachVideoOrderEntries orders (createdVideos db specs) =
      specs.enum.map (fun p =>
        ({ artist_id := p.2.artist_id,
           video_id := nextId (db.videos.map (fun v => v.id)) + p.1,
           display_order := allocate_next_position_videos orders p.2.artist_id } :
          ArtistVideoOrder)) := by
  unfold attachVideoOrderEntries createdVideos
  rw [List.filterMap_map]
  have hfun : ((fun v : Video =>
      Option.map (fun a =>
        ({ artist_id := a, video_id := v.id,
           display_order := allocate_next_position_videos orders a } :
          ArtistVideoOrder)) v.artist_id) ∘
      (fun p : Nat × VideoCreate =>
        ({ id := nextId (db.videos.map (fun v => v.id)) + p.1,
           artist_id := some p.2.artist_id } : Video))) =
      some ∘ (fun p : Nat × VideoCreate =>
        ({ artist_id := p.2.artist_id,
           video_id := nextId (db.videos.map (fun v => v.id)) + p.1,
           display_order := allocate_next_position_videos orders p.2.artist_id } :
          ArtistVideoOrder)) := rfl
  rw [hfun, List.filterMap_eq_map]

theorem attach_song_inserts_ok (db : DB) (specs : List SongCreate)
    (hri : refIntegrity db) :
    songInsertsOK db.artist_song_orders
      (attachSongOrderEntries db.artist_song_orders (createdSongs db specs)) = true := by
  unfold songInsertsOK
  rw [attach_createdSongs]
  apply insertKeysOK_of_nodup_disjoint
  · apply List.Nodup.of_map Prod.snd
    rw [List.map_map, List.map_map]
    have hshape : (Prod.snd ∘ ArtistSongOrder.key) ∘ (fun p : Nat × SongCreate =>
        ({ artist_id := p.2.artist_id,
           song_id := nextId (db.songs.map (fun s => s.id)) + p.1,
           display_order := allocate_next_position_songs db.artist_song_orders
             p.2.artist_id } : ArtistSongOrder)) =
        (fun i => nextId (db.songs.map (fun s => s.id)) + i) ∘ Prod.fst := rfl
    rw [hshape, ← List.map_map, List.enum_map_fst]
    apply List.Nodup.map
    · intro x y hxy
      have hxy2 : nextId (db.songs.map (fun s => s.id)) + x =
          nextId (db.songs.map (fun s => s.id)) + y := hxy
      omega
    · exact List.nodup_range _
  · intro k hk hmem
    rw [List.map_map] at hk
    rcases List.mem_map.mp hk with ⟨p, _, hkey⟩
    rcases List.mem_map.mp hmem with ⟨e, he, hkeye⟩
    have hsid : e.song_id = nextId (db.songs.map (fun s => s.id)) + p.1 := by
      exact congrArg Prod.snd (hkeye.trans hkey.symm)
    have hex := (hri.1 e he).2
    rcases List.any_eq_true.mp hex with ⟨srow, hsrow, hid⟩
    have hideq : srow.id = e.song_id := by
      exact beq_iff_eq.mp hid
    have hlt : srow.id < nextId (db.songs.map (fun s => s.id)) :=
      lt_nextId (List.mem_map_of_mem (fun s => s.id) hsrow)
    rw [hideq, hsid] at hlt
    omega

theorem attach_video_inserts_ok (db : DB) (specs : List VideoCreate)
    (hri : refIntegrity db) :
    videoInsertsOK db.artist_video_orders
      (attachVideoOrderEntries db.artist_video_orders (createdVideos db specs)) = true := by
  unfold videoInsertsOK
  rw [attach_createdVideos]
  apply insertKeysOK_of_nodup_disjoint
  · apply List.Nodup.of_map Prod.snd
    rw [List.map_map, List.map_map]
    have hshape : (Prod.snd ∘ ArtistVideoOrder.key) ∘ (fun p : Nat × VideoCreate =>
        ({ artist_id := p.2.artist_id,
           video_id := nextId (db.videos.map (fun v => v.id)) + p.1,
           display_order := allocate_next_position_videos db.artist_video_orders
             p.2.artist_id } : ArtistVideoOrder)) =
        (fun i => nextId (db.videos.map (fun v => v.id)) + i) ∘ Prod.fst := rfl
    rw [hshape, ← List.map_map, List.enum_map_fst]
    apply List.Nodup.map
    · intro x y hxy
      have hxy2 : nextId (db.videos.map (fun v => v.id)) + x =
          nextId (db.videos.map (fun v => v.id)) + y := hxy
      omega
    · exact List.nodup_range _
  · intro k hk hmem
    rw [List.map_map] at hk
    rcases List.mem_map.mp hk with ⟨p, _, hkey⟩
    rcases List.mem_map.mp hmem with ⟨e, he, hkeye⟩
    have hsid : e.video_id = nextId (db.videos.map (fun v => v.id)) + p.1 := by
      exact congrArg Prod.snd (hkeye.trans hkey.symm)
    have hex := (hri.2.1 e he).2
    rcases List.any_eq_true.mp hex with ⟨vrow, hvrow, hid⟩
    have hideq : vrow.id = e.video_id := by
      exact beq_iff_eq.mp hid
    have hlt : vrow.id < nextId (db.videos.map (fun v => v.id)) :=
      lt_nextId (List.mem_map_of_mem (fun v => v.id) hvrow)
    rw [hideq, hsid] at hlt
    omega

/-! Success- and failure-shape equations for the handlers, conditional on
the branch conditions the source checks. -/

theorem reorder_songs_eq_of_ok (db : DB) (a : Nat) (items : List ItemOrder)
    (h1 : db.artists.any (fun ar => ar.id == a) = true)
    (h2 : ∀ it ∈ items,
      db.songs.any (fun s => s.id == it.id && s.artist_id == some a) = true)
    (h3 : songInsertsOK db.artist_song_orders (songReorderInserts db.artist_song_orders a items) = true) :
    reorder_artist_songs db a items =
      ({ db with artist_song_orders :=
          (db.artist_song_orders.map
            (applySongWrites (songReorderWrites db.artist_song_orders a items) a)) ++
            songReorderInserts db.artist_song_orders a items }, .ok items.length) := by
  unfold reorder_artist_songs
  have hfind : items.find? (fun it =>
      !(db.songs.any (fun s => s.id == it.id && s.artist_id == some a))) = none := by
    apply List.find?_eq_none.mpr
    intro it hit
    simp [h2 it hit]
  rw [h1, hfind]
  simp only [Bool.not_true, Bool.false_eq_true, if_false]
  rw [h3]
  simp only [if_true]

theorem reorder_videos_eq_of_ok (db : DB) (a : Nat) (items : List ItemOrder)
    (h1 : db.artists.any (fun ar => ar.id == a) = true)
    (h2 : ∀ it ∈ items,
      db.videos.any (fun v => v.id == it.id && v.artist_id == some a) = true)
    (h3 : videoInsertsOK db.artist_video_orders (videoReorderInserts db.artist_video_orders a items) = true) :
    reorder_artist_videos db a items =
      ({ db with artist_video_orders :=
          (db.artist_video_orders.map
            (applyVideoWrites (videoReorderWrites db.artist_video_orders a items) a)) ++
            videoReorderInserts db.artist_video_orders a items }, .ok items.length) := by
  unfold reorder_artist_videos
  have hfind : items.find? (fun it =>
      !(db.videos.any (fun v => v.id == it.id && v.artist_id == some a))) = none := by
    apply List.find?_eq_none.mpr
    intro it hit
    simp [h2 it hit]
  rw [h1, hfind]
  simp only [Bool.not_true, Bool.false_eq_true, if_false]
  rw [h3]
  simp only [if_true]

theorem reorder_featured_eq_of_ok (db : DB) (ps : List (Nat × Int))
    (h : ∀ w ∈ ps, hasFeaturedEntry db.featured_music w.1 = true) :
    reorder_featured_music db ps =
      ({ db with featured_music := db.featured_music.map (applyFeaturedWrites ps) },
       .ok ps.length) := by
  unfold reorder_featured_music
  have hfind : ps.find? (fun w => !(hasFeaturedEntry db.featured_music w.1)) = none := by
    apply List.find?_eq_none.mpr
    intro w hw
    simp [h w hw]
  rw [hfind]

theorem add_song_intended_eq_of_ok (db : DB) (specs : List SongCreate)
    (h1 : specs.isEmpty = false)
    (h2 : specs.all (fun sp => db.artists.any (fun ar => ar.id == sp.artist_id)) = true)
    (h3 : songInsertsOK db.artist_song_orders
      (attachSongOrderEntries db.artist_song_orders (createdSongs db specs)) = true) :
    add_song_intended db specs false =
      ({ db with
          songs := db.songs ++ createdSongs db specs,
          artist_song_orders := db.artist_song_orders ++
            attachSongOrderEntries db.artist_song_orders (createdSongs db specs) },
       .ok ((createdSongs db specs).map (fun s => s.id))) := by
  unfold add_song_intended
  rw [h1, h2]
  simp only [Bool.false_eq_true, if_false, Bool.not_true, Bool.true_eq_false]
  rw [h3]
  simp only [if_true, if_false]

theorem add_videos_eq_of_ok (db : DB) (specs : List VideoCreate)
    (h1 : specs.isEmpty = false)
    (h2 : specs.all (fun sp => db.artists.any (fun ar => ar.id == sp.artist_id)) = true)
    (h3 : videoInsertsOK db.artist_video_orders
      (attachVideoOrderEntries db.artist_video_orders (createdVideos db specs)) = true) :
    add_videos db specs false =
      ({ db with
          videos := db.videos ++ createdVideos db specs,
          artist_video_orders := db.artist_video_orders ++
            attachVideoOrderEntries db.artist_video_orders (createdVideos db specs) },
       .ok ((createdVideos db specs).map (fun v => v.id))) := by
  unfold add_videos
  rw [h1, h2]
  simp only [Bool.false_eq_true, if_false, Bool.not_true, Bool.true_eq_false]
  rw [h3]
  simp only [if_true, if_false]

theorem add_song_intended_eq_of_fail2 (db : DB) (specs : List SongCreate)
    (h1 : specs.isEmpty = false)
    (h2 : specs.all (fun sp => db.artists.any (fun ar => ar.id == sp.artist_id)) = true) :
    add_song_intended db specs true =
      ({ db with songs := db.songs ++ createdSongs db specs },
       .error .storageFailure) := by
  unfold add_song_intended
  rw [h1, h2]
  simp only [Bool.false_eq_true, if_false, Bool.not_true, Bool.true_eq_false, if_true]

theorem add_videos_eq_of_fail2 (db : DB) (specs : List VideoCreate)
    (h1 : specs.isEmpty = false)
    (h2 : specs.all (fun sp => db.artists.any (fun ar => ar.id == sp.artist_id)) = true) :
    add_videos db specs true =
      ({ db with videos := db.videos ++ createdVideos db specs },
       .error .storageFailure) := by
  unfold add_videos
  rw [h1, h2]
  simp only [Bool.false_eq_true, if_false, Bool.not_true, Bool.true_eq_false, if_true]

theorem add_featured_eq_of_ok (db : DB) (s : Nat)
    (h1 : db.songs.any (fun r => r.id == s) = true)
    (h2 : hasFeaturedEntry db.featured_music s = false) :
    add_to_featured_music db s =
      ({ db with featured_music := db.featured_music ++
          [{ song_id := s,
             position := allocate_next_position_featured db.featured_music }] },
       .ok (allocate_next_position_featured db.featured_music)) := by
  have h3 : featuredInsertsOK db.featured_music
      [{ song_id := s,
         position := allocate_next_position_featured db.featured_music }] = true := by
    unfold featuredInsertsOK
    simp only [List.map_cons, List.map_nil, insertKeysOK, contains_map_songid, h2,
      Bool.not_false, Bool.and_self]
  unfold add_to_featured_music
  rw [h1, h2]
  dsimp only
  rw [h3]
  simp only [Bool.not_true, Bool.false_eq_true, if_false, if_true]

theorem uniqueKeys_applyOp (db : DB) (op : Op) (h : uniqueKeys db) :
    uniqueKeys (applyOp db op) := by
  cases op with
  | addSongs specs f2 => exact uniqueKeys_add_song_intended db specs f2 h
  | addVideos specs f2 => exact uniqueKeys_add_videos db specs f2 h
  | addFeatured s => exact uniqueKeys_add_featured db s h
  | removeFeatured s => exact uniqueKeys_remove_featured db s h
  | reorderSongs a items => exact uniqueKeys_reorder_songs db a items h
  | reorderVideos a items => exact uniqueKeys_reorder_videos db a items h
  | reorderFeatured ps => exact uniqueKeys_reorder_featured db ps h
  | deleteArtist a => exact uniqueKeys_delete_artist db a h
  | deleteSong s => exact uniqueKeys_delete_song db s h
  | deleteVideo v => exact uniqueKeys_delete_video db v h
  | editSongArtist s na => exact uniqueKeys_edit_song db s na h

theorem songOrderPositions_append (t1 t2 : List ArtistSongOrder) (a : Nat) :
    songOrderPositions (t1 ++ t2) a =
      songOrderPositions t1 a ++ songOrderPositions t2 a := by
  unfold songOrderPositions
  rw [List.filter_append, List.map_append]

theorem songOrderPositions_single (a s : Nat) (p : Int) :
    songOrderPositions [{ artist_id := a, song_id := s, display_order := p }] a = [p] := by
  simp [songOrderPositions]

theorem add_song_intended_singleton (db : DB) (a : Nat)
    (ha : db.artists.any (fun ar => ar.id == a) = true)
    (hfree : hasSongEntry db.artist_song_orders a
      (nextId (db.songs.map (fun s => s.id))) = false) :
    add_song_intended db [⟨a⟩] false =
      ({ db with
          songs := db.songs ++
            [{ id := nextId (db.songs.map (fun s => s.id)), artist_id := some a }],
          artist_song_orders := db.artist_song_orders ++
            [{ artist_id := a, song_id := nextId (db.songs.map (fun s => s.id)),
               display_order := allocate_next_position_songs db.artist_song_orders a }] },
       .ok [nextId (db.songs.map (fun s => s.id))]) := by
  have h1 : ([⟨a⟩] : List SongCreate).isEmpty = false := rfl
  have h2 : ([⟨a⟩] : List SongCreate).all
      (fun sp => db.artists.any (fun ar => ar.id == sp.artist_id)) = true := by
    simp [ha]
  have hc : createdSongs db [⟨a⟩] =
      [{ id := nextId (db.songs.map (fun s => s.id)), artist_id := some a }] := rfl
  have hat : attachSongOrderEntries db.artist_song_orders (createdSongs db [⟨a⟩]) =
      [{ artist_id := a, song_id := nextId (db.songs.map (fun s => s.id)),
         display_order := allocate_next_position_songs db.artist_song_orders a }] := by
    rw [hc]
    rfl
  have h3 : songInsertsOK db.artist_song_orders
      (attachSongOrderEntries db.artist_song_orders (createdSongs db [⟨a⟩])) = true := by
    rw [hat]
    unfold songInsertsOK
    simp only [List.map_cons, List.map_nil, insertKeysOK, Bool.and_true]
    have hkey : ({ artist_id := a,
                   song_id := nextId (db.songs.map (fun s => s.id)),
                   display_order :=
                     allocate_next_position_songs db.artist_song_orders a } :
                  ArtistSongOrder).key =
        (a, nextId (db.songs.map (fun s => s.id))) := rfl
    rw [hkey, contains_map_songkey, hfree]
    rfl
  rw [add_song_intended_eq_of_ok db [⟨a⟩] h1 h2 h3, hat, hc]
  rfl

theorem videoOrderPositions_append (t1 t2 : List ArtistVideoOrder) (a : Nat) :
    videoOrderPositions (t1 ++ t2) a =
      videoOrderPositions t1 a ++ videoOrderPositions t2 a := by
  unfold videoOrderPositions
  rw [List.filter_append, List.map_append]

theorem videoOrderPositions_single (a v : Nat) (p : Int) :
    videoOrderPositions [{ artist_id := a, video_id := v, display_order := p }] a = [p] := by
  simp [videoOrderPositions]

theorem hasVideoEntry_false_of_scope_empty {orders : List ArtistVideoOrder}
    {a : Nat} (h : videoOrderPositions orders a = []) (v : Nat) :
    hasVideoEntry orders a v = false := by
  unfold videoOrderPositions at h
  have hfil : orders.filter (fun e => e.artist_id == a) = [] :=
    List.map_eq_nil_iff.mp h
  have hall := List.filter_eq_nil_iff.mp hfil
  cases hh : hasVideoEntry orders a v with
  | false => rfl
  | true =>
    rcases hasVideoEntry_iff.mp hh with ⟨e, he, h1, h2⟩
    exact absurd (by simp [h1]) (hall e he)

theorem add_videos_singleton (db : DB) (a : Nat)
    (ha : db.artists.any (fun ar => ar.id == a) = true)
    (hfree : hasVideoEntry db.artist_video_orders a
      (nextId (db.videos.map (fun v => v.id))) = false) :
    add_videos db [⟨a⟩] false =
      ({ db with
          videos := db.videos ++
            [{ id := nextId (db.videos.map (fun v => v.id)), artist_id := some a }],
          artist_video_orders := db.artist_video_orders ++
            [{ artist_id := a, video_id := nextId (db.videos.map (fun v => v.id)),
               display_order := allocate_next_position_videos db.artist_video_orders a }] },
       .ok [nextId (db.videos.map (fun v => v.id))]) := by
  have h1 : ([⟨a⟩] : List VideoCreate).isEmpty = false := rfl
  have h2 : ([⟨a⟩] : List VideoCreate).all
      (fun sp => db.artists.any (fun ar => ar.id == sp.artist_id)) = true := by
    simp [ha]
  have hc : createdVideos db [⟨a⟩] =
      [{ id := nextId (db.videos.map (fun v => v.id)), artist_id := some a }] := rfl
  have hat : attachVideoOrderEntries db.artist_video_orders (createdVideos db [⟨a⟩]) =
      [{ artist_id := a, video_id := nextId (db.videos.map (fun v => v.id)),
         display_order := allocate_next_position_videos db.artist_video_orders a }] := by
    rw [hc]
    rfl
  have h3 : videoInsertsOK db.artist_video_orders
      (attachVideoOrderEntries db.artist_video_orders (createdVideos db [⟨a⟩])) = true := by
    rw [hat]
    unfold videoInsertsOK
    simp only [List.map_cons, List.map_nil, insertKeysOK, Bool.and_true]
    have hkey : ({ artist_id := a,
                   video_id := nextId (db.videos.map (fun v => v.id)),
                   display_order :=
                     allocate_next_position_videos db.artist_video_orders a } :
                  ArtistVideoOrder).key =
        (a, nextId (db.videos.map (fun v => v.id))) := rfl
    rw [hkey, contains_map_videokey, hfree]
    rfl
  rw [add_videos_eq_of_ok db [⟨a⟩] h1 h2 h3, hat, hc]
  rfl

/-- C2 (code bug in the artist-song scope): for every parent scope the
allocator returns 1 when the scope has no committed order entries and
`m + 1` when the maximum committed position is `m`, and auto-attach stores
each newly attached child's order entry at exactly the allocated
position — attaching V1 and then V2 to an artist with no ordered videos
stores positions 1 and 2, and a featured add stores the allocated
position.  But the artist-song scope's attach endpoint can never run the
allocator its lines 184-199 contain: every call to `add_song` that
survives request parsing raises `UnboundLocalError` at `song.py` line 121
(the local `song` is first bound at line 177) and returns 500 with the
committed store unchanged, so no song is ever attached at any position
and the claimed S1-then-S2 scenario is impossible in the song scope. -/
theorem C2_allocator_and_auto_attach :
    (∀ orders a, songOrderPositions orders a = [] →
      allocate_next_position_songs orders a = 1) ∧
    (∀ orders a m, m ∈ songOrderPositions orders a →
      (∀ p ∈ songOrderPositions orders a, p ≤ m) →
      allocate_next_position_songs orders a = m + 1) ∧
    (∀ orders a, videoOrderPositions orders a = [] →
      allocate_next_position_videos orders a = 1) ∧
    (∀ orders a m, m ∈ videoOrderPositions orders a →
      (∀ p ∈ videoOrderPositions orders a, p ≤ m) →
      allocate_next_position_videos orders a = m + 1) ∧
    (∀ featured : List FeaturedMusic, featured = [] →
      allocate_next_position_featured featured = 1) ∧
    (∀ (featured : List FeaturedMusic) m, m ∈ featured.map (fun e => e.position) →
      (∀ p ∈ featured.map (fun e => e.position), p ≤ m) →
      allocate_next_position_featured featured = m + 1) ∧
    (∀ db specs, specs.isEmpty = false →
      specs.all (fun sp => db.artists.any (fun ar => ar.id == sp.artist_id)) = true →
      refIntegrity db →
      ∀ e ∈ (add_videos db specs false).1.artist_video_orders,
        e ∉ db.artist_video_orders →
        e.display_order =
          allocate_next_position_videos db.artist_video_orders e.artist_id) ∧
    (∀ db s, db.songs.any (fun r => r.id == s) = true →
      hasFeaturedEntry db.featured_music s = false →
      (add_to_featured_music db s).1.featured_music =
        db.featured_music ++
          [{ song_id := s,
             position := allocate_next_position_featured db.featured_music }] ∧
      (add_to_featured_music db s).2 =
        .ok (allocate_next_position_featured db.featured_music)) ∧
    (∀ db a, db.artists.any (fun ar => ar.id == a) = true →
      videoOrderPositions db.artist_video_orders a = [] →
      ∃ v1 v2,
        (add_videos db [⟨a⟩] false).2 = .ok [v1] ∧
        ({ artist_id := a, video_id := v1, display_order := 1 } : ArtistVideoOrder) ∈
          (add_videos db [⟨a⟩] false).1.artist_video_orders ∧
        (add_videos (add_videos db [⟨a⟩] false).1 [⟨a⟩] false).2 = .ok [v2] ∧
        ({ artist_id := a, video_id := v1, display_order := 1 } : ArtistVideoOrder) ∈
          (add_videos (add_videos db [⟨a⟩] false).1 [⟨a⟩] false).1.artist_video_orders ∧
        ({ artist_id := a, video_id := v2, display_order := 2 } : ArtistVideoOrder) ∈
          (add_videos (add_videos db [⟨a⟩] false).1 [⟨a⟩] false).1.artist_video_orders) ∧
    (∀ db (specs : List SongCreate), specs.isEmpty = false →
      add_song db specs = (db, .error .storageFailure) ∧
      Err.statusCode .storageFailure = 500) := by
  refine ⟨allocate_songs_empty, allocate_songs_max, allocate_videos_empty,
    allocate_videos_max, allocate_featured_empty, allocate_featured_max,
    ?_, ?_, ?_, ?_⟩
  · intro db specs h1 h2 hri e hmem hnotold
    rw [add_videos_eq_of_ok db specs h1 h2 (attach_video_inserts_ok db specs hri)] at hmem
    dsimp only at hmem
    rcases List.mem_append.mp hmem with hm | hm
    · exact absurd hm hnotold
    · rw [attach_createdVideos] at hm
      rcases List.mem_map.mp hm with ⟨p, _, hpe⟩
      rw [← hpe]
  · intro db s h1 h2
    rw [add_featured_eq_of_ok db s h1 h2]
    exact ⟨rfl, rfl⟩
  · intro db a ha hempty
    have hfree1 : hasVideoEntry db.artist_video_orders a
        (nextId (db.videos.map (fun v => v.id))) = false :=
      hasVideoEntry_false_of_scope_empty hempty _
    have halloc1 : allocate_next_position_videos db.artist_video_orders a = 1 :=
      allocate_videos_empty _ _ hempty
    have heq1 := add_videos_singleton db a ha hfree1
    rw [halloc1] at heq1
    have hfree2 : hasVideoEntry
        (db.artist_video_orders ++
          [{ artist_id := a, video_id := nextId (db.videos.map (fun v => v.id)),
             display_order := 1 }]) a
        (nextId ((db.videos ++
          [({ id := nextId (db.videos.map (fun v => v.id)), artist_id := some a } : Video)]).map (fun v => v.id))) = false := by
      rw [List.map_append]
      simp only [List.map_cons, List.map_nil]
      rw [hasVideoEntry_append]
      rw [hasVideoEntry_false_of_scope_empty hempty]
      simp only [Bool.false_or]
      have hlt2 : nextId (db.videos.map (fun v => v.id)) <
          nextId (db.videos.map (fun v => v.id) ++
            [nextId (db.videos.map (fun v => v.id))]) := by
        apply lt_nextId
        exact List.mem_append_right _ (by simp)
      unfold hasVideoEntry
      simp only [List.any_cons, List.any_nil, Bool.or_false, beq_self_eq_true,
        Bool.true_and]
      exact beq_eq_false_iff_ne.mpr (Nat.ne_of_lt hlt2)
    have halloc2 : allocate_next_position_videos
        (db.artist_video_orders ++
          [{ artist_id := a, video_id := nextId (db.videos.map (fun v => v.id)),
             display_order := 1 }]) a = 2 := by
      have hm : (1 : Int) ∈ videoOrderPositions
          (db.artist_video_orders ++
            [{ artist_id := a, video_id := nextId (db.videos.map (fun v => v.id)),
               display_order := 1 }]) a := by
        rw [videoOrderPositions_append, hempty, videoOrderPositions_single]
        simp
      have hb : ∀ p ∈ videoOrderPositions
          (db.artist_video_orders ++
            [{ artist_id := a, video_id := nextId (db.videos.map (fun v => v.id)),
               display_order := 1 }]) a, p ≤ 1 := by
        rw [videoOrderPositions_append, hempty, videoOrderPositions_single]
        intro p hp
        rw [List.mem_singleton.mp hp]
      have h12 := allocate_videos_max _ a 1 hm hb
      rw [h12]
      rfl
    have heq2 := add_videos_singleton
      ({ artists := db.artists,
         songs := db.songs,
         videos := db.videos ++
           [{ id := nextId (db.videos.map (fun v => v.id)), artist_id := some a }],
         artist_song_orders := db.artist_song_orders,
         artist_video_orders := db.artist_video_orders ++
           [{ artist_id := a, video_id := nextId (db.videos.map (fun v => v.id)),
              display_order := 1 }],
         featured_music := db.featured_music } : DB) a ha hfree2
    dsimp only at heq2
    rw [halloc2] at heq2
    refine ⟨nextId (db.videos.map (fun v => v.id)),
      nextId ((db.videos ++
        [({ id := nextId (db.videos.map (fun v => v.id)), artist_id := some a } : Video)]).map (fun v => v.id)), ?_, ?_, ?_, ?_, ?_⟩
    · rw [heq1]
    · rw [heq1]
      exact List.mem_append_right _ (by simp)
    · rw [heq1]
      dsimp only
      rw [heq2]
    · rw [heq1]
      dsimp only
      rw [heq2]
      dsimp only
      exact List.mem_append_left _ (List.mem_append_right _ (by simp))
    · rw [heq1]
      dsimp only
      rw [heq2]
      dsimp only
      exact List.mem_append_right _ (by simp)
  · intro db specs h1
    refine ⟨?_, rfl⟩
    unfold add_song
    rw [h1]
    simp

/-- Witness for C2 at a concrete database: one artist with id 1 and an
empty store; the two sequential single-video creations are exercised
through the scenario clause, and the always-failing song endpoint is
exercised on a one-song batch for the same artist. -/
theorem C2_allocator_and_auto_attach_witness :
    (∃ v1 v2,
      (add_videos ⟨[⟨1⟩], [], [], [], [], []⟩ [⟨1⟩] false).2 = .ok [v1] ∧
      ({ artist_id := 1, video_id := v1, display_order := 1 } : ArtistVideoOrder) ∈
        (add_videos ⟨[⟨1⟩], [], [], [], [], []⟩ [⟨1⟩] false).1.artist_video_orders ∧
      (add_videos (add_videos ⟨[⟨1⟩], [], [], [], [], []⟩ [⟨1⟩] false).1 [⟨1⟩] false).2 =
        .ok [v2] ∧
      ({ artist_id := 1, video_id := v1, display_order := 1 } : ArtistVideoOrder) ∈
        (add_videos (add_videos ⟨[⟨1⟩], [], [], [], [], []⟩ [⟨1⟩] false).1
          [⟨1⟩] false).1.artist_video_orders ∧
      ({ artist_id := 1, video_id := v2, display_order := 2 } : ArtistVideoOrder) ∈
        (add_videos (add_videos ⟨[⟨1⟩], [], [], [], [], []⟩ [⟨1⟩] false).1
          [⟨1⟩] false).1.artist_video_orders) ∧
    (add_song ⟨[⟨1⟩], [], [], [], [], []⟩ [⟨1⟩] =
      ((⟨[⟨1⟩], [], [], [], [], []⟩ : DB), .error .storageFailure) ∧
      Err.statusCode .storageFailure = 500) :=
  ⟨C2_allocator_and_auto_attach.2.2.2.2.2.2.2.2.1 ⟨[⟨1⟩], [], [], [], [], []⟩ 1
    (by decide) (by decide),
   C2_allocator_and_auto_attach.2.2.2.2.2.2.2.2.2 ⟨[⟨1⟩], [], [], [], [], []⟩ [⟨1⟩]
    (by decide)⟩

/-- C1: for every parent (an artist under the song or video relation, or
the global featured list) and after any sequence of attach, detach,
reorder, and remove operations, the committed order-entry store contains
at most one entry per child for that parent: no `(artist_id, song_id)`
pair, `(artist_id, video_id)` pair, or featured `song_id` appears in two
entries. -/
theorem C1_order_entry_uniqueness (db : DB) (ops : List Op)
    (h : uniqueKeys db) : uniqueKeys (ops.foldl applyOp db) := by
  induction ops generalizing db with
  | nil => exact h
  | cons op ops ih => exact ih _ (uniqueKeys_applyOp db op h)

/-- Witness for C1: the uniqueness invariant holds after a concrete mixed
sequence of attaches, featured adds, reorders, detaches and deletes run
from an initially empty store. -/
theorem C1_order_entry_uniqueness_witness :
    uniqueKeys (⟨[⟨1⟩, ⟨2⟩], [], [], [], [], []⟩ : DB) ∧
    uniqueKeys
      (([Op.addSongs [⟨1⟩, ⟨1⟩, ⟨2⟩] false,
         Op.addVideos [⟨1⟩] false,
         Op.addFeatured 1,
         Op.addFeatured 2,
         Op.reorderSongs 1 [⟨1, 5⟩, ⟨2, 1⟩, ⟨1, 2⟩],
         Op.reorderFeatured [(1, 2), (2, 1)],
         Op.editSongArtist 1 none,
         Op.removeFeatured 2,
         Op.deleteSong 2,
         Op.deleteArtist 2].foldl applyOp
        (⟨[⟨1⟩, ⟨2⟩], [], [], [], [], []⟩ : DB))) :=
  ⟨by decide,
   C1_order_entry_uniqueness ⟨[⟨1⟩, ⟨2⟩], [], [], [], [], []⟩
     [Op.addSongs [⟨1⟩, ⟨1⟩, ⟨2⟩] false,
      Op.addVideos [⟨1⟩] false,
      Op.addFeatured 1,
      Op.addFeatured 2,
      Op.reorderSongs 1 [⟨1, 5⟩, ⟨2, 1⟩, ⟨1, 2⟩],
      Op.reorderFeatured [(1, 2), (2, 1)],
      Op.editSongArtist 1 none,
      Op.removeFeatured 2,
      Op.deleteSong 2,
      Op.deleteArtist 2] (by decide)⟩

/-- C4: an artist reorder batch (songs or videos) containing a child that
does not belong to the stated artist under the relation's own-foreign-key
rule fails with InvalidReference (400) naming an offending child, and the
committed database — in particular every stored position — is unchanged,
including the valid children of the same batch. -/
theorem C4_reorder_invalid_child_rejected :
    (∀ db a items, db.artists.any (fun ar => ar.id == a) = true →
      (∃ it ∈ items,
        db.songs.any (fun s => s.id == it.id && s.artist_id == some a) = false) →
      ∃ c, reorder_artist_songs db a items = (db, .error (.invalidReference c)) ∧
        (Err.invalidReference c).statusCode = 400 ∧
        ∃ it ∈ items, it.id = c ∧
          db.songs.any (fun s => s.id == c && s.artist_id == some a) = false) ∧
    (∀ db a items, db.artists.any (fun ar => ar.id == a) = true →
      (∃ it ∈ items,
        db.videos.any (fun v => v.id == it.id && v.artist_id == some a) = false) →
      ∃ c, reorder_artist_videos db a items = (db, .error (.invalidReference c)) ∧
        (Err.invalidReference c).statusCode = 400 ∧
        ∃ it ∈ items, it.id = c ∧
          db.videos.any (fun v => v.id == c && v.artist_id == some a) = false) := by
  constructor
  · intro db a items ha hex
    have hsome : (items.find? (fun it =>
        !(db.songs.any (fun s => s.id == it.id && s.artist_id == some a)))).isSome := by
      rw [List.find?_isSome]
      rcases hex with ⟨it, hit, hfalse⟩
      exact ⟨it, hit, by rw [hfalse]; rfl⟩
    rcases Option.isSome_iff_exists.mp hsome with ⟨it0, hfind⟩
    have hp := List.find?_some hfind
    simp only [Bool.not_eq_true'] at hp
    refine ⟨it0.id, ?_, rfl, it0, List.mem_of_find?_eq_some hfind, rfl, hp⟩
    unfold reorder_artist_songs
    rw [ha, hfind]
    simp only [Bool.not_true, Bool.false_eq_true, if_false]
  · intro db a items ha hex
    have hsome : (items.find? (fun it =>
        !(db.videos.any (fun v => v.id == it.id && v.artist_id == some a)))).isSome := by
      rw [List.find?_isSome]
      rcases hex with ⟨it, hit, hfalse⟩
      exact ⟨it, hit, by rw [hfalse]; rfl⟩
    rcases Option.isSome_iff_exists.mp hsome with ⟨it0, hfind⟩
    have hp := List.find?_some hfind
    simp only [Bool.not_eq_true'] at hp
    refine ⟨it0.id, ?_, rfl, it0, List.mem_of_find?_eq_some hfind, rfl, hp⟩
    unfold reorder_artist_videos
    rw [ha, hfind]
    simp only [Bool.not_true, Bool.false_eq_true, if_false]

/-- Witness for C4: artist 1 exists, song 10 belongs to artist 2, and song
5 belongs to artist 1; the batch listing both the valid song 5 and the
foreign song 10 is rejected with a 400 naming an offending child and the
store is unchanged. -/
theorem C4_reorder_invalid_child_rejected_witness :
    ∃ c, reorder_artist_songs
        (⟨[⟨1⟩, ⟨2⟩], [⟨5, some 1⟩, ⟨10, some 2⟩], [], [⟨1, 5, 1⟩], [], []⟩ : DB) 1
        [⟨5, 2⟩, ⟨10, 1⟩] =
      ((⟨[⟨1⟩, ⟨2⟩], [⟨5, some 1⟩, ⟨10, some 2⟩], [], [⟨1, 5, 1⟩], [], []⟩ : DB),
        .error (.invalidReference c)) ∧
      (Err.invalidReference c).statusCode = 400 ∧
      ∃ it ∈ ([⟨5, 2⟩, ⟨10, 1⟩] : List ItemOrder), it.id = c ∧
        ((⟨[⟨1⟩, ⟨2⟩], [⟨5, some 1⟩, ⟨10, some 2⟩], [], [⟨1, 5, 1⟩], [], []⟩ :
          DB).songs.any (fun s => s.id == c && s.artist_id == some 1)) = false :=
  C4_reorder_invalid_child_rejected.1
    ⟨[⟨1⟩, ⟨2⟩], [⟨5, some 1⟩, ⟨10, some 2⟩], [], [⟨1, 5, 1⟩], [], []⟩ 1
    [⟨5, 2⟩, ⟨10, 1⟩] (by decide) ⟨⟨10, 1⟩, by decide, by decide⟩

/-- C5 (code bug): the order-entry inserts of a bulk video creation are
committed in a second transaction after the video rows were already
committed ("Commit to get video IDs", `video.py` line 185), so when the
order-entry commit (line 213) fails the handler's rollback cannot undo the
first commit: the created videos stay committed with no order entries
while the endpoint reports 500 claiming everything was rolled back — the
claim (and the route's own docstring "all videos are added in a single
transaction") does not hold on the code.  The bulk song creation has the
same two-commit text (`song.py` lines 174 and 202) but never reaches its
first commit: it raises `UnboundLocalError` at line 121 on every parsed
batch, so every call fails with 500 before anything is created and the
song half of the claim cannot even be exercised. -/
theorem C5_bulk_create_not_atomic :
    (∀ db (specs : List VideoCreate), specs.isEmpty = false →
      specs.all (fun sp => db.artists.any (fun ar => ar.id == sp.artist_id)) = true →
      add_videos db specs true =
        ({ db with videos := db.videos ++ createdVideos db specs },
         .error .storageFailure) ∧
      createdVideos db specs ≠ [] ∧
      (add_videos db specs true).1.artist_video_orders = db.artist_video_orders) ∧
    (∀ db (specs : List SongCreate), specs.isEmpty = false →
      add_song db specs = (db, .error .storageFailure)) := by
  constructor
  · intro db specs h1 h2
    have heq := add_videos_eq_of_fail2 db specs h1 h2
    refine ⟨heq, ?_, ?_⟩
    · intro hnil
      unfold createdVideos at hnil
      rw [List.map_eq_nil_iff] at hnil
      have : specs = [] := by
        cases hspecs : specs with
        | nil => rfl
        | cons x xs =>
          rw [hspecs] at hnil
          cases hnil
      rw [this] at h1
      cases h1
    · rw [heq]
  · intro db specs h1
    unfold add_song
    rw [h1]
    simp

/-- Witness for C5: one artist, a one-video batch whose order-entry commit
fails — the video row stays committed and no order entry exists — and a
one-song batch, on which the song endpoint fails with nothing created. -/
theorem C5_bulk_create_not_atomic_witness :
    (add_videos (⟨[⟨1⟩], [], [], [], [], []⟩ : DB) [⟨1⟩] true =
      ({ (⟨[⟨1⟩], [], [], [], [], []⟩ : DB) with
          videos := ([] : List Video) ++
            createdVideos (⟨[⟨1⟩], [], [], [], [], []⟩ : DB) [⟨1⟩] },
       .error .storageFailure) ∧
    createdVideos (⟨[⟨1⟩], [], [], [], [], []⟩ : DB) [⟨1⟩] ≠ [] ∧
    (add_videos (⟨[⟨1⟩], [], [], [], [], []⟩ : DB) [⟨1⟩]
      true).1.artist_video_orders = []) ∧
    add_song (⟨[⟨1⟩], [], [], [], [], []⟩ : DB) [⟨1⟩] =
      ((⟨[⟨1⟩], [], [], [], [], []⟩ : DB), .error .storageFailure) :=
  ⟨C5_bulk_create_not_atomic.1 ⟨[⟨1⟩], [], [], [], [], []⟩ [⟨1⟩]
    (by decide) (by decide),
   C5_bulk_create_not_atomic.2 ⟨[⟨1⟩], [], [], [], [], []⟩ [⟨1⟩] (by decide)⟩

instance : IsTotal (Song × Option Int) (fun x y => posLe x.2 y.2) :=
  ⟨fun a b => IsTotal.total (r := posLe) a.2 b.2⟩

instance : IsTrans (Song × Option Int) (fun x y => posLe x.2 y.2) :=
  ⟨fun a b c hab hbc => IsTrans.trans (r := posLe) a.2 b.2 c.2 hab hbc⟩

instance : IsTotal (Video × Option Int) (fun x y => posLe x.2 y.2) :=
  ⟨fun a b => IsTotal.total (r := posLe) a.2 b.2⟩

instance : IsTrans (Video × Option Int) (fun x y => posLe x.2 y.2) :=
  ⟨fun a b c hab hbc => IsTrans.trans (r := posLe) a.2 b.2 c.2 hab hbc⟩

theorem featured_filter_length_one {l : List FeaturedMusic} {s : Nat}
    (hnd : (l.map FeaturedMusic.song_id).Nodup)
    (hmem : hasFeaturedEntry l s = true) :
    (l.filter (fun e => e.song_id == s)).length = 1 := by
  induction l with
  | nil => cases hmem
  | cons e t ih =>
    rw [List.map_cons, List.nodup_cons] at hnd
    cases he : (e.song_id == s) with
    | true =>
      simp only [List.filter_cons, he, if_true]
      have htnil : t.filter (fun e2 => e2.song_id == s) = [] := by
        apply List.filter_eq_nil_iff.mpr
        intro e2 he2
        simp only [Bool.not_eq_true]
        apply beq_eq_false_iff_ne.mpr
        intro hcontra
        apply hnd.1
        rw [beq_iff_eq.mp he, ← hcontra]
        exact List.mem_map_of_mem FeaturedMusic.song_id he2
      rw [htnil]
      rfl
    | false =>
      simp only [List.filter_cons, he, Bool.false_eq_true, if_false]
      apply ih hnd.2
      unfold hasFeaturedEntry at hmem ⊢
      rw [List.any_cons, he, Bool.false_or] at hmem
      exact hmem

theorem featured_eraseP_no_match {l : List FeaturedMusic} {s : Nat}
    (hnd : (l.map FeaturedMusic.song_id).Nodup) :
    ∀ e ∈ l.eraseP (fun e => e.song_id == s), e.song_id ≠ s := by
  induction l with
  | nil =>
    intro e he
    cases he
  | cons e0 t ih =>
    rw [List.map_cons, List.nodup_cons] at hnd
    intro e he hcontra
    cases he0 : (e0.song_id == s) with
    | true =>
      simp only [List.eraseP_cons, he0, cond_true] at he
      apply hnd.1
      rw [beq_iff_eq.mp he0, ← hcontra]
      exact List.mem_map_of_mem FeaturedMusic.song_id he
    | false =>
      simp only [List.eraseP_cons, he0, cond_false] at he
      rcases List.mem_cons.mp he with rfl | he
      · rw [hcontra] at he0
        simp at he0
      · exact ih hnd.2 e he hcontra

/-- C8: adding a song to the featured list fails with Conflict (400) if and
only if the song is already present, and on that failure exactly one
featured entry for it remains; removing deletes the single entry by song id
and fails with NotFound (404) if and only if no entry exists. -/
theorem C8_featured_add_remove (db : DB) (s : Nat)
    (hri : refIntegrity db) (hu : uniqueKeys db) :
    ((add_to_featured_music db s).2 = .error .conflict ↔
      hasFeaturedEntry db.featured_music s = true) ∧
    Err.conflict.statusCode = 400 ∧
    (hasFeaturedEntry db.featured_music s = true →
      add_to_featured_music db s = (db, .error .conflict) ∧
      (db.featured_music.filter (fun e => e.song_id == s)).length = 1) ∧
    ((remove_from_featured_music db s).2 = .error (.notFound s) ↔
      hasFeaturedEntry db.featured_music s = false) ∧
    (Err.notFound s).statusCode = 404 ∧
    (hasFeaturedEntry db.featured_music s = true →
      (remove_from_featured_music db s).2 = .ok () ∧
      (∀ e ∈ (remove_from_featured_music db s).1.featured_music, e.song_id ≠ s) ∧
      (∀ e ∈ db.featured_music, e.song_id ≠ s →
        e ∈ (remove_from_featured_music db s).1.featured_music)) := by
  have hconq : hasFeaturedEntry db.featured_music s = true →
      add_to_featured_music db s = (db, .error .conflict) := by
    intro hpres
    rcases hasFeaturedEntry_iff.mp hpres with ⟨e, he, hes⟩
    have hsong : (db.songs.any (fun r => r.id == s)) = true := by
      have := (hri.2.2 e he)
      rw [hes] at this
      exact this
    unfold add_to_featured_music
    rw [hsong, hpres]
    simp only [Bool.not_true, Bool.false_eq_true, if_false, if_true]
  have hremeq : hasFeaturedEntry db.featured_music s = true →
      remove_from_featured_music db s =
        ({ db with featured_music :=
            db.featured_music.eraseP (fun e => e.song_id == s) }, .ok ()) := by
    intro hpres
    unfold remove_from_featured_music
    rw [hpres]
    simp only [if_true]
  refine ⟨?_, rfl, ?_, ?_, rfl, ?_⟩
  · constructor
    · intro hcon
      by_contra habs
      rw [Bool.not_eq_true] at habs
      cases hsong : (db.songs.any (fun r => r.id == s)) with
      | false =>
        unfold add_to_featured_music at hcon
        rw [hsong] at hcon
        simp only [Bool.not_false, if_true] at hcon
        cases hcon
      | true =>
        rw [add_featured_eq_of_ok db s hsong habs] at hcon
        cases hcon
    · intro hpres
      rw [hconq hpres]
  · intro hpres
    exact ⟨hconq hpres, featured_filter_length_one hu.2.2 hpres⟩
  · cases hpres : hasFeaturedEntry db.featured_music s with
    | true =>
      rw [hremeq hpres]
      constructor
      · intro hcontra
        cases hcontra
      · intro hcontra
        cases hcontra
    | false =>
      unfold remove_from_featured_music
      rw [hpres]
      simp only [Bool.false_eq_true, if_false]
  · intro hpres
    rw [hremeq hpres]
    refine ⟨rfl, ?_, ?_⟩
    · exact featured_eraseP_no_match hu.2.2
    · intro e he hne
      exact (List.mem_eraseP_of_neg (by simp [hne])).mpr he

/-- Witness for C8: a database with song 1 featured at position 1 and song
2 unfeatured; all clauses are exercised at song 1. -/
theorem C8_featured_add_remove_witness :
    ((add_to_featured_music
        (⟨[], [⟨1, none⟩], [], [], [], [⟨1, 1⟩]⟩ : DB) 1).2 = .error .conflict ↔
      hasFeaturedEntry
        (⟨[], [⟨1, none⟩], [], [], [], [⟨1, 1⟩]⟩ : DB).featured_music 1 = true) ∧
    Err.conflict.statusCode = 400 ∧
    (hasFeaturedEntry
        (⟨[], [⟨1, none⟩], [], [], [], [⟨1, 1⟩]⟩ : DB).featured_music 1 = true →
      add_to_featured_music (⟨[], [⟨1, none⟩], [], [], [], [⟨1, 1⟩]⟩ : DB) 1 =
        ((⟨[], [⟨1, none⟩], [], [], [], [⟨1, 1⟩]⟩ : DB), .error .conflict) ∧
      ((⟨[], [⟨1, none⟩], [], [], [], [⟨1, 1⟩]⟩ : DB).featured_music.filter
        (fun e => e.song_id == 1)).length = 1) ∧
    ((remove_from_featured_music
        (⟨[], [⟨1, none⟩], [], [], [], [⟨1, 1⟩]⟩ : DB) 1).2 = .error (.notFound 1) ↔
      hasFeaturedEntry
        (⟨[], [⟨1, none⟩], [], [], [], [⟨1, 1⟩]⟩ : DB).featured_music 1 = false) ∧
    (Err.notFound 1).statusCode = 404 ∧
    (hasFeaturedEntry
        (⟨[], [⟨1, none⟩], [], [], [], [⟨1, 1⟩]⟩ : DB).featured_music 1 = true →
      (remove_from_featured_music
        (⟨[], [⟨1, none⟩], [], [], [], [⟨1, 1⟩]⟩ : DB) 1).2 = .ok () ∧
      (∀ e ∈ (remove_from_featured_music
        (⟨[], [⟨1, none⟩], [], [], [], [⟨1, 1⟩]⟩ : DB) 1).1.featured_music,
        e.song_id ≠ 1) ∧
      (∀ e ∈ (⟨[], [⟨1, none⟩], [], [], [], [⟨1, 1⟩]⟩ : DB).featured_music,
        e.song_id ≠ 1 →
        e ∈ (remove_from_featured_music
          (⟨[], [⟨1, none⟩], [], [], [], [⟨1, 1⟩]⟩ : DB) 1).1.featured_music)) :=
  C8_featured_add_remove ⟨[], [⟨1, none⟩], [], [], [], [⟨1, 1⟩]⟩ 1
    (by decide) (by decide)

theorem any_id_eq_exists {l : List Artist} {i : Nat} :
    (l.any (fun ar => ar.id == i)) = true ↔ ∃ ar ∈ l, ar.id = i := by
  simp [List.any_eq_true, beq_iff_eq]

theorem any_song_id_eq_exists {l : List Song} {i : Nat} :
    (l.any (fun s => s.id == i)) = true ↔ ∃ s ∈ l, s.id = i := by
  simp [List.any_eq_true, beq_iff_eq]

theorem any_video_id_eq_exists {l : List Video} {i : Nat} :
    (l.any (fun v => v.id == i)) = true ↔ ∃ v ∈ l, v.id = i := by
  simp [List.any_eq_true, beq_iff_eq]

/-- C9: deleting an artist removes every artist-song and artist-video
order entry with that artist's id, and deleting a song removes the song's
artist-song order entry and, when featured, its featured entry; in either
case referential integrity is preserved, so no orphaned order entry
survives the delete. -/
theorem C9_delete_cascades (db : DB) (hri : refIntegrity db) :
    (∀ a db2, delete_artist db a = (db2, .ok ()) →
      (∀ e ∈ db2.artist_song_orders, e.artist_id ≠ a) ∧
      (∀ e ∈ db2.artist_video_orders, e.artist_id ≠ a) ∧
      refIntegrity db2) ∧
    (∀ s db2, delete_song db s = (db2, .ok ()) →
      (∀ e ∈ db2.artist_song_orders, e.song_id ≠ s) ∧
      (∀ e ∈ db2.featured_music, e.song_id ≠ s) ∧
      refIntegrity db2) := by
  constructor
  · intro a db2 h
    unfold delete_artist at h
    split at h
    · simp at h
    · have hdb2 : db2 = _ := (congrArg Prod.fst h).symm
      subst hdb2
      dsimp only
      refine ⟨?_, ?_, ?_, ?_, ?_⟩
      · intro e he
        have hp := List.of_mem_filter he
        simp only [Bool.and_eq_true, Bool.not_eq_true'] at hp
        exact fun hc => by
          rw [hc] at hp
          simp at hp
      · intro e he
        have hp := List.of_mem_filter he
        simp only [Bool.and_eq_true, Bool.not_eq_true'] at hp
        exact fun hc => by
          rw [hc] at hp
          simp at hp
      · intro e he
        have hp := List.of_mem_filter he
        have hmem := List.mem_of_mem_filter he
        simp only [Bool.and_eq_true, Bool.not_eq_true'] at hp
        rcases hri.1 e hmem with ⟨har, hsong⟩
        constructor
        · rcases any_id_eq_exists.mp har with ⟨ar, harMem, harId⟩
          apply any_id_eq_exists.mpr
          refine ⟨ar, ?_, harId⟩
          apply List.mem_filter.mpr
          refine ⟨harMem, ?_⟩
          simp only [Bool.not_eq_true']
          apply beq_eq_false_iff_ne.mpr
          rw [harId]
          intro hc
          rw [hc] at hp
          simp at hp
        · rcases any_song_id_eq_exists.mp hsong with ⟨srow, hsMem, hsId⟩
          apply any_song_id_eq_exists.mpr
          refine ⟨srow, ?_, hsId⟩
          apply List.mem_filter.mpr
          refine ⟨hsMem, ?_⟩
          simp only [Bool.not_eq_true']
          cases hsa : (srow.artist_id == some a) with
          | false => rfl
          | true =>
            exfalso
            have hdel : srow.id ∈ (db.songs.filter
                (fun s2 => s2.artist_id == some a)).map (fun s2 => s2.id) :=
              List.mem_map_of_mem _ (List.mem_filter.mpr ⟨hsMem, hsa⟩)
            rw [hsId] at hdel
            have hcontains : ((db.songs.filter
                (fun s2 => s2.artist_id == some a)).map
                  (fun s2 => s2.id)).contains e.song_id = true :=
              List.elem_eq_true_of_mem hdel
            rw [hp.2] at hcontains
            cases hcontains
      · intro e he
        have hp := List.of_mem_filter he
        have hmem := List.mem_of_mem_filter he
        simp only [Bool.and_eq_true, Bool.not_eq_true'] at hp
        rcases hri.2.1 e hmem with ⟨har, hvid⟩
        constructor
        · rcases any_id_eq_exists.mp har with ⟨ar, harMem, harId⟩
          apply any_id_eq_exists.mpr
          refine ⟨ar, ?_, harId⟩
          apply List.mem_filter.mpr
          refine ⟨harMem, ?_⟩
          simp only [Bool.not_eq_true']
          apply beq_eq_false_iff_ne.mpr
          rw [harId]
          intro hc
          rw [hc] at hp
          simp at hp
        · rcases any_video_id_eq_exists.mp hvid with ⟨vrow, hvMem, hvId⟩
          apply any_video_id_eq_exists.mpr
          refine ⟨vrow, ?_, hvId⟩
          apply List.mem_filter.mpr
          refine ⟨hvMem, ?_⟩
          simp only [Bool.not_eq_true']
          cases hva : (vrow.artist_id == some a) with
          | false => rfl
          | true =>
            exfalso
            have hdel : vrow.id ∈ (db.videos.filter
                (fun v2 => v2.artist_id == some a)).map (fun v2 => v2.id) :=
              List.mem_map_of_mem _ (List.mem_filter.mpr ⟨hvMem, hva⟩)
            rw [hvId] at hdel
            have hcontains : ((db.videos.filter
                (fun v2 => v2.artist_id == some a)).map
                  (fun v2 => v2.id)).contains e.video_id = true :=
              List.elem_eq_true_of_mem hdel
            rw [hp.2] at hcontains
            cases hcontains
      · intro e he
        have hp := List.of_mem_filter he
        have hmem := List.mem_of_mem_filter he
        simp only [Bool.not_eq_true'] at hp
        rcases any_song_id_eq_exists.mp (hri.2.2 e hmem) with ⟨srow, hsMem, hsId⟩
        apply any_song_id_eq_exists.mpr
        refine ⟨srow, ?_, hsId⟩
        apply List.mem_filter.mpr
        refine ⟨hsMem, ?_⟩
        simp only [Bool.not_eq_true']
        cases hsa : (srow.artist_id == some a) with
        | false => rfl
        | true =>
          exfalso
          have hdel : srow.id ∈ (db.songs.filter
              (fun s2 => s2.artist_id == some a)).map (fun s2 => s2.id) :=
            List.mem_map_of_mem _ (List.mem_filter.mpr ⟨hsMem, hsa⟩)
          rw [hsId] at hdel
          have hcontains : ((db.songs.filter
              (fun s2 => s2.artist_id == some a)).map
                (fun s2 => s2.id)).contains e.song_id = true :=
            List.elem_eq_true_of_mem hdel
          rw [hp] at hcontains
          cases hcontains
  · intro s db2 h
    unfold delete_song at h
    split at h
    · simp at h
    · have hdb2 : db2 = _ := (congrArg Prod.fst h).symm
      subst hdb2
      dsimp only
      refine ⟨?_, ?_, ?_, ?_, ?_⟩
      · intro e he
        have hp := List.of_mem_filter he
        simp only [Bool.not_eq_true'] at hp
        exact fun hc => by
          rw [hc] at hp
          simp at hp
      · intro e he
        have hp := List.of_mem_filter he
        simp only [Bool.not_eq_true'] at hp
        exact fun hc => by
          rw [hc] at hp
          simp at hp
      · intro e he
        have hp := List.of_mem_filter he
        have hmem := List.mem_of_mem_filter he
        simp only [Bool.not_eq_true'] at hp
        rcases hri.1 e hmem with ⟨har, hsong⟩
        refine ⟨har, ?_⟩
        rcases any_song_id_eq_exists.mp hsong with ⟨srow, hsMem, hsId⟩
        apply any_song_id_eq_exists.mpr
        refine ⟨srow, ?_, hsId⟩
        apply List.mem_filter.mpr
        refine ⟨hsMem, ?_⟩
        simp only [Bool.not_eq_true']
        rw [hsId]
        have : (e.song_id == s) = false := hp
        exact this
      · intro e he
        exact hri.2.1 e he
      · intro e he
        have hp := List.of_mem_filter he
        have hmem := List.mem_of_mem_filter he
        simp only [Bool.not_eq_true'] at hp
        rcases any_song_id_eq_exists.mp (hri.2.2 e hmem) with ⟨srow, hsMem, hsId⟩
        apply any_song_id_eq_exists.mpr
        refine ⟨srow, ?_, hsId⟩
        apply List.mem_filter.mpr
        refine ⟨hsMem, ?_⟩
        simp only [Bool.not_eq_true']
        rw [hsId]
        exact hp

/-- Witness for C9: deleting artist 1 from a database where it owns one
ordered song and one ordered video, the song also being featured, removes
all order entries; the clauses are checked on the resulting state. -/
theorem C9_delete_cascades_witness :
    (∀ e ∈ ((⟨[], [], [], [], [], []⟩ : DB)).artist_song_orders,
      e.artist_id ≠ 1) ∧
    (∀ e ∈ ((⟨[], [], [], [], [], []⟩ : DB)).artist_video_orders,
      e.artist_id ≠ 1) ∧
    refIntegrity (⟨[], [], [], [], [], []⟩ : DB) :=
  (C9_delete_cascades
    (⟨[⟨1⟩], [⟨5, some 1⟩], [⟨7, some 1⟩], [⟨1, 5, 1⟩], [⟨1, 7, 1⟩], [⟨5, 1⟩]⟩ : DB)
    (by decide)).1 1 ⟨[], [], [], [], [], []⟩ rfl

theorem lastWrite_isSome_of_mem {ws : List (Nat × Int)} {s : Nat} {p0 : Int}
    (hmem : (s, p0) ∈ ws) : ∃ p, lastWrite ws s = some p := by
  induction ws with
  | nil => cases hmem
  | cons w rest ih =>
    rcases List.mem_cons.mp hmem with hw | hw
    · cases hrest : lastWrite rest s with
      | some q =>
        exact ⟨q, by simp only [lastWrite, hrest]⟩
      | none =>
        refine ⟨w.2, ?_⟩
        simp only [lastWrite, hrest]
        rw [← hw]
        simp
    · rcases ih hw with ⟨p, hp⟩
      exact ⟨p, by simp only [lastWrite, hp]⟩

theorem lastWrite_filter_map {q : ItemOrder → Bool} {items : List ItemOrder}
    {s : Nat} (hq : ∀ it ∈ items, it.id = s → q it = true) :
    lastWrite ((items.filter q).map (fun it => (it.id, it.position))) s =
      lastWrite (items.map (fun it => (it.id, it.position))) s := by
  induction items with
  | nil => rfl
  | cons it rest ih =>
    have hrest := fun it2 h2 => hq it2 (List.mem_cons_of_mem _ h2)
    cases hqit : q it with
    | true =>
      simp only [List.filter_cons, hqit, if_true, List.map_cons, lastWrite]
      rw [ih hrest]
    | false =>
      simp only [List.filter_cons, hqit, Bool.false_eq_true, if_false,
        List.map_cons, lastWrite]
      rw [ih hrest]
      cases hlw : lastWrite (rest.map (fun it2 => (it2.id, it2.position))) s with
      | some p => rfl
      | none =>
        have hne : (it.id == s) = false := by
          apply beq_eq_false_iff_ne.mpr
          intro hcontra
          rw [hq it (List.mem_cons_self _ _) hcontra] at hqit
          cases hqit
        simp [hne]

/-- C3 counterexample: the claim's defensive create-if-missing branch does
not exist for the featured relation — reordering the featured list with a
song that exists but has no featured entry fails with NotFound (404) and
creates nothing, instead of creating an order entry at the requested
position as the claim states for all three relations. -/
theorem C3_featured_no_fallback_counterexample :
    reorder_featured_music (⟨[], [⟨1, none⟩], [], [], [], []⟩ : DB) [(1, 1)] =
      ((⟨[], [⟨1, none⟩], [], [], [], []⟩ : DB), .error (.notFound 1)) ∧
    (reorder_featured_music (⟨[], [⟨1, none⟩], [], [], [], []⟩ : DB)
      [(1, 1)]).1.featured_music = [] ∧
    (Err.notFound 1).statusCode = 404 :=
  ⟨rfl, rfl, rfl⟩

/-- C3 (amended): for artist-song and artist-video reorder batches that
pass their preconditions, each item whose child has a committed order
entry ends with that entry's position overwritten by the batch's last
write for the child, and each item whose child lacks one gets a fresh
entry created at the item's position (defensive fallback); the featured
reorder only overwrites — every listed song must already be featured, its
entry's position becomes the batch's last write for it, and a listed song
without a featured entry makes the whole request fail with NotFound (404)
leaving the store unchanged. -/
theorem C3_reorder_overwrite_or_create :
    (∀ db a items db2 n, reorder_artist_songs db a items = (db2, .ok n) →
      ∀ it ∈ items,
        (hasSongEntry db.artist_song_orders a it.id = true →
          ∃ p, lastWrite (items.map (fun it2 => (it2.id, it2.position))) it.id =
              some p ∧
            ∃ e ∈ db2.artist_song_orders,
              e.artist_id = a ∧ e.song_id = it.id ∧ e.display_order = p) ∧
        (hasSongEntry db.artist_song_orders a it.id = false →
          ({ artist_id := a, song_id := it.id, display_order := it.position } :
            ArtistSongOrder) ∈ db2.artist_song_orders)) ∧
    (∀ db a items db2 n, reorder_artist_videos db a items = (db2, .ok n) →
      ∀ it ∈ items,
        (hasVideoEntry db.artist_video_orders a it.id = true →
          ∃ p, lastWrite (items.map (fun it2 => (it2.id, it2.position))) it.id =
              some p ∧
            ∃ e ∈ db2.artist_video_orders,
              e.artist_id = a ∧ e.video_id = it.id ∧ e.display_order = p) ∧
        (hasVideoEntry db.artist_video_orders a it.id = false →
          ({ artist_id := a, video_id := it.id, display_order := it.position } :
            ArtistVideoOrder) ∈ db2.artist_video_orders)) ∧
    (∀ db ps db2 n, reorder_featured_music db ps = (db2, .ok n) →
      ∀ w ∈ ps, ∃ p, lastWrite ps w.1 = some p ∧
        ∃ e ∈ db2.featured_music, e.song_id = w.1 ∧ e.position = p) ∧
    (∀ db (ps : List (Nat × Int)),
      (∃ w ∈ ps, hasFeaturedEntry db.featured_music w.1 = false) →
      ∃ sid, reorder_featured_music db ps = (db, .error (.notFound sid))) := by
  refine ⟨?_, ?_, ?_, ?_⟩
  · intro db a items db2 n h it hit
    unfold reorder_artist_songs at h
    split at h
    · simp at h
    · split at h
      · simp at h
      · dsimp only at h
        split at h
        · have hdb2 : db2 = _ := (congrArg Prod.fst h).symm
          subst hdb2
          dsimp only
          constructor
          · intro hhas
            have hw : (it.id, it.position) ∈ songReorderWrites db.artist_song_orders a items := by
              unfold songReorderWrites
              exact List.mem_map_of_mem _ (List.mem_filter.mpr ⟨hit, hhas⟩)
            rcases lastWrite_isSome_of_mem hw with ⟨p, hp⟩
            have hq : ∀ it2 ∈ items, it2.id = it.id →
                hasSongEntry db.artist_song_orders a it2.id = true := by
              intro it2 _ hid
              rw [hid]
              exact hhas
            have hlwall : lastWrite (items.map
                (fun it2 => (it2.id, it2.position))) it.id = some p := by
              rw [← lastWrite_filter_map hq]
              exact hp
            refine ⟨p, hlwall, ?_⟩
            rcases hasSongEntry_iff.mp hhas with ⟨e0, he0, ha0, hs0⟩
            refine ⟨applySongWrites (songReorderWrites db.artist_song_orders a items) a e0,
              List.mem_append_left _ (List.mem_map_of_mem _ he0), ?_, ?_, ?_⟩
            · rw [applySongWrites_artist_id, ha0]
            · rw [applySongWrites_song_id, hs0]
            · unfold applySongWrites
              rw [hs0]
              have hbeq : (e0.artist_id == a) = true := beq_iff_eq.mpr ha0
              rw [hbeq, hp]
              rfl
          · intro hmiss
            apply List.mem_append_right
            unfold songReorderInserts
            have : ({ artist_id := a, song_id := it.id, display_order := it.position } : ArtistSongOrder) =
                (fun it2 => ({ artist_id := a, song_id := it2.id, display_order := it2.position } : ArtistSongOrder)) it := rfl
            rw [this]
            apply List.mem_map_of_mem
            apply List.mem_filter.mpr
            exact ⟨hit, by rw [hmiss]; rfl⟩
        · simp at h
  · intro db a items db2 n h it hit
    unfold reorder_artist_videos at h
    split at h
    · simp at h
    · split at h
      · simp at h
      · dsimp only at h
        split at h
        · have hdb2 : db2 = _ := (congrArg Prod.fst h).symm
          subst hdb2
          dsimp only
          constructor
          · intro hhas
            have hw : (it.id, it.position) ∈ videoReorderWrites db.artist_video_orders a items := by
              unfold videoReorderWrites
              exact List.mem_map_of_mem _ (List.mem_filter.mpr ⟨hit, hhas⟩)
            rcases lastWrite_isSome_of_mem hw with ⟨p, hp⟩
            have hq : ∀ it2 ∈ items, it2.id = it.id →
                hasVideoEntry db.artist_video_orders a it2.id = true := by
              intro it2 _ hid
              rw [hid]
              exact hhas
            have hlwall : lastWrite (items.map
                (fun it2 => (it2.id, it2.position))) it.id = some p := by
              rw [← lastWrite_filter_map hq]
              exact hp
            refine ⟨p, hlwall, ?_⟩
            rcases hasVideoEntry_iff.mp hhas with ⟨e0, he0, ha0, hs0⟩
            refine ⟨applyVideoWrites (videoReorderWrites db.artist_video_orders a items) a e0,
              List.mem_append_left _ (List.mem_map_of_mem _ he0), ?_, ?_, ?_⟩
            · rw [applyVideoWrites_artist_id, ha0]
            · rw [applyVideoWrites_video_id, hs0]
            · unfold applyVideoWrites
              rw [hs0]
              have hbeq : (e0.artist_id == a) = true := beq_iff_eq.mpr ha0
              rw [hbeq, hp]
              rfl
          · intro hmiss
            apply List.mem_append_right
            unfold videoReorderInserts
            have : ({ artist_id := a, video_id := it.id, display_order := it.position } : ArtistVideoOrder) =
                (fun it2 => ({ artist_id := a, video_id := it2.id, display_order := it2.position } : ArtistVideoOrder)) it := rfl
            rw [this]
            apply List.mem_map_of_mem
            apply List.mem_filter.mpr
            exact ⟨hit, by rw [hmiss]; rfl⟩
        · simp at h
  · intro db ps db2 n h w hw
    unfold reorder_featured_music at h
    split at h
    · simp at h
    · rename_i hfind
      have hdb2 : db2 = _ := (congrArg Prod.fst h).symm
      subst hdb2
      dsimp only
      rcases lastWrite_isSome_of_mem (show (w.1, w.2) ∈ ps by simpa using hw) with ⟨p, hp⟩
      refine ⟨p, hp, ?_⟩
      have hhas : hasFeaturedEntry db.featured_music w.1 = true := by
        have := List.find?_eq_none.mp hfind w hw
        simp only [Bool.not_eq_true', Bool.not_eq_false] at this
        exact this
      rcases hasFeaturedEntry_iff.mp hhas with ⟨e0, he0, hs0⟩
      refine ⟨applyFeaturedWrites ps e0, List.mem_map_of_mem _ he0, ?_, ?_⟩
      · rw [applyFeaturedWrites_song_id, hs0]
      · unfold applyFeaturedWrites
        rw [hs0, hp]
  · intro db ps hex
    have hsome : (ps.find? (fun w => !(hasFeaturedEntry db.featured_music w.1))).isSome := by
      rw [List.find?_isSome]
      rcases hex with ⟨w, hw, hfalse⟩
      exact ⟨w, hw, by rw [hfalse]; rfl⟩
    rcases Option.isSome_iff_exists.mp hsome with ⟨w0, hfind⟩
    refine ⟨w0.1, ?_⟩
    unfold reorder_featured_music
    rw [hfind]

/-- Witness for C3's amended theorem: a featured list with songs 1 and 2
at positions 1 and 2 reordered to 2 and 1; both clauses hold on the
committed result. -/
theorem C3_reorder_overwrite_or_create_witness :
    ∀ w ∈ ([(1, 2), (2, 1)] : List (Nat × Int)),
      ∃ p, lastWrite ([(1, 2), (2, 1)] : List (Nat × Int)) w.1 = some p ∧
        ∃ e ∈ (reorder_featured_music
          (⟨[], [⟨1, none⟩, ⟨2, none⟩], [], [], [], [⟨1, 1⟩, ⟨2, 2⟩]⟩ : DB)
          [(1, 2), (2, 1)]).1.featured_music, e.song_id = w.1 ∧ e.position = p :=
  C3_reorder_overwrite_or_create.2.2.1
    (⟨[], [⟨1, none⟩, ⟨2, none⟩], [], [], [], [⟨1, 1⟩, ⟨2, 2⟩]⟩ : DB)
    [(1, 2), (2, 1)]
    (reorder_featured_music
      (⟨[], [⟨1, none⟩, ⟨2, none⟩], [], [], [], [⟨1, 1⟩, ⟨2, 2⟩]⟩ : DB)
      [(1, 2), (2, 1)]).1 2 rfl

/-- C10 counterexample: a batch listing the same child twice passes
validation (song 10 belongs to artist 1) but, because the child has no
order entry yet, both occurrences take the defensive-create branch
(`autoflush=False` hides the first pending insert from the second
query), the commit violates `unique_artist_song`, and the request fails
with 500 leaving the store unchanged — the operation does not succeed as
the claim states. -/
theorem C10_duplicate_missing_child_counterexample :
    (∀ it ∈ ([⟨10, 1⟩, ⟨10, 2⟩] : List ItemOrder),
      ((⟨[⟨1⟩], [⟨10, some 1⟩], [], [], [], []⟩ : DB)).songs.any
        (fun s => s.id == it.id && s.artist_id == some 1) = true) ∧
    reorder_artist_songs (⟨[⟨1⟩], [⟨10, some 1⟩], [], [], [], []⟩ : DB) 1
      [⟨10, 1⟩, ⟨10, 2⟩] =
      ((⟨[⟨1⟩], [⟨10, some 1⟩], [], [], [], []⟩ : DB), .error .storageFailure) ∧
    Err.storageFailure.statusCode = 500 :=
  ⟨by decide, rfl, rfl⟩

/-- C10 (amended): for an artist reorder batch that passes validation and
in which every listed child already has an order entry (the normal state
after auto-attach), the operation succeeds even when a child is listed
more than once, the child's order entry ends at the position of the last
occurrence in the batch, the success message reports the raw item count
including duplicates, and key-uniqueness is preserved; a duplicated child
without an existing order entry instead makes the whole request fail with
500 (unique-constraint violation on the duplicate inserts) and no
position changes. -/
theorem C10_duplicate_last_wins (db : DB) (a : Nat) (items : List ItemOrder)
    (ha : db.artists.any (fun ar => ar.id == a) = true)
    (hvalid : ∀ it ∈ items,
      db.songs.any (fun s => s.id == it.id && s.artist_id == some a) = true)
    (hentries : ∀ it ∈ items, hasSongEntry db.artist_song_orders a it.id = true) :
    (reorder_artist_songs db a items).2 = .ok items.length ∧
    (∀ it ∈ items, ∃ p,
      lastWrite (items.map (fun it2 => (it2.id, it2.position))) it.id = some p ∧
      ∃ e ∈ (reorder_artist_songs db a items).1.artist_song_orders,
        e.artist_id = a ∧ e.song_id = it.id ∧ e.display_order = p) ∧
    (uniqueKeys db → uniqueKeys (reorder_artist_songs db a items).1) := by
  have hins : songReorderInserts db.artist_song_orders a items = [] := by
    unfold songReorderInserts
    rw [List.filter_eq_nil_iff.mpr ?_]
    · rfl
    · intro it hit
      rw [hentries it hit]
      simp
  have h3 : songInsertsOK db.artist_song_orders (songReorderInserts db.artist_song_orders a items) =
      true := by
    rw [hins]
    rfl
  have heq := reorder_songs_eq_of_ok db a items ha hvalid h3
  refine ⟨by rw [heq], ?_, fun hu => uniqueKeys_reorder_songs db a items hu⟩
  intro it hit
  have hhas := hentries it hit
  have hw : (it.id, it.position) ∈ songReorderWrites db.artist_song_orders a items := by
    unfold songReorderWrites
    exact List.mem_map_of_mem _ (List.mem_filter.mpr ⟨hit, hhas⟩)
  rcases lastWrite_isSome_of_mem hw with ⟨p, hp⟩
  have hq : ∀ it2 ∈ items, it2.id = it.id →
      hasSongEntry db.artist_song_orders a it2.id = true := by
    intro it2 hit2 _
    exact hentries it2 hit2
  have hlwall : lastWrite (items.map (fun it2 => (it2.id, it2.position))) it.id =
      some p := by
    rw [← lastWrite_filter_map hq]
    exact hp
  refine ⟨p, hlwall, ?_⟩
  rcases hasSongEntry_iff.mp hhas with ⟨e0, he0, ha0, hs0⟩
  refine ⟨applySongWrites (songReorderWrites db.artist_song_orders a items) a e0, ?_, ?_, ?_, ?_⟩
  · rw [heq]
    dsimp only
    exact List.mem_append_left _ (List.mem_map_of_mem _ he0)
  · rw [applySongWrites_artist_id, ha0]
  · rw [applySongWrites_song_id, hs0]
  · unfold applySongWrites
    rw [hs0]
    have hbeq : (e0.artist_id == a) = true := beq_iff_eq.mpr ha0
    rw [hbeq, hp]
    rfl

/-- Witness for C10's amended theorem: artist 1's song 10 has an order
entry at position 5 and is listed twice; the batch succeeds with count 2
and the entry ends at the last occurrence's position. -/
theorem C10_duplicate_last_wins_witness :
    (reorder_artist_songs
      (⟨[⟨1⟩], [⟨10, some 1⟩], [], [⟨1, 10, 5⟩], [], []⟩ : DB) 1
      [⟨10, 1⟩, ⟨10, 2⟩]).2 = .ok ([⟨10, 1⟩, ⟨10, 2⟩] : List ItemOrder).length ∧
    (∀ it ∈ ([⟨10, 1⟩, ⟨10, 2⟩] : List ItemOrder), ∃ p,
      lastWrite (([⟨10, 1⟩, ⟨10, 2⟩] : List ItemOrder).map
        (fun it2 => (it2.id, it2.position))) it.id = some p ∧
      ∃ e ∈ (reorder_artist_songs
          (⟨[⟨1⟩], [⟨10, some 1⟩], [], [⟨1, 10, 5⟩], [], []⟩ : DB) 1
          [⟨10, 1⟩, ⟨10, 2⟩]).1.artist_song_orders,
        e.artist_id = 1 ∧ e.song_id = it.id ∧ e.display_order = p) ∧
    (uniqueKeys (⟨[⟨1⟩], [⟨10, some 1⟩], [], [⟨1, 10, 5⟩], [], []⟩ : DB) →
      uniqueKeys (reorder_artist_songs
        (⟨[⟨1⟩], [⟨10, some 1⟩], [], [⟨1, 10, 5⟩], [], []⟩ : DB) 1
        [⟨10, 1⟩, ⟨10, 2⟩]).1) :=
  C10_duplicate_last_wins (⟨[⟨1⟩], [⟨10, some 1⟩], [], [⟨1, 10, 5⟩], [], []⟩ : DB)
    1 [⟨10, 1⟩, ⟨10, 2⟩] (by decide) (by decide) (by decide)

theorem songReorderInserts_eq_nil {tbl : List ArtistSongOrder} {a : Nat}
    {items : List ItemOrder}
    (h : ∀ it ∈ items, hasSongEntry tbl a it.id = true) :
    songReorderInserts tbl a items = [] := by
  unfold songReorderInserts
  rw [List.filter_eq_nil_iff.mpr ?_]
  · rfl
  · intro it hit
    simp [h it hit]

theorem songReorderWrites_eq_map {tbl : List ArtistSongOrder} {a : Nat}
    {items : List ItemOrder}
    (h : ∀ it ∈ items, hasSongEntry tbl a it.id = true) :
    songReorderWrites tbl a items = items.map (fun it => (it.id, it.position)) := by
  unfold songReorderWrites
  rw [List.filter_eq_self.mpr h]

theorem hasSongEntry_after_reorder (orders : List ArtistSongOrder) (a : Nat)
    (items : List ItemOrder) (it : ItemOrder) (hit : it ∈ items) :
    hasSongEntry ((orders.map (applySongWrites (songReorderWrites orders a items) a)) ++
      songReorderInserts orders a items) a it.id = true := by
  rw [hasSongEntry_append, hasSongEntry_map_applySongWrites]
  cases hhas : hasSongEntry orders a it.id with
  | true => rfl
  | false =>
    simp only [Bool.false_or]
    apply hasSongEntry_iff.mpr
    refine ⟨⟨a, it.id, it.position⟩, ?_, rfl, rfl⟩
    unfold songReorderInserts
    have : ({ artist_id := a, song_id := it.id, display_order := it.position } :
        ArtistSongOrder) =
        (fun it2 => ({ artist_id := a, song_id := it2.id, display_order := it2.position } : ArtistSongOrder)) it := rfl
    rw [this]
    apply List.mem_map_of_mem
    apply List.mem_filter.mpr
    exact ⟨hit, by rw [hhas]; rfl⟩

theorem lastWrite_all_of_song_insert (orders : List ArtistSongOrder) (a : Nat)
    (items : List ItemOrder)
    (hok : songInsertsOK orders (songReorderInserts orders a items) = true)
    {it0 : ItemOrder}
    (hmem : it0 ∈ items.filter (fun it => !(hasSongEntry orders a it.id))) :
    lastWrite (items.map (fun it => (it.id, it.position))) it0.id =
      some it0.position := by
  have hnodupkeys : ((songReorderInserts orders a items).map
      ArtistSongOrder.key).Nodup := insertKeysOK_nodup_ins hok
  have hkeysshape : (songReorderInserts orders a items).map ArtistSongOrder.key =
      ((items.filter (fun it => !(hasSongEntry orders a it.id))).map
        (fun it => it.id)).map (fun i => (a, i)) := by
    unfold songReorderInserts
    rw [List.map_map, List.map_map]
    rfl
  rw [hkeysshape] at hnodupkeys
  have hnodupids := List.Nodup.of_map _ hnodupkeys
  have hfmem : (it0.id, it0.position) ∈
      (items.filter (fun it => !(hasSongEntry orders a it.id))).map
        (fun it => (it.id, it.position)) := List.mem_map_of_mem _ hmem
  have hnodupfst : (((items.filter (fun it => !(hasSongEntry orders a it.id))).map
      (fun it => (it.id, it.position))).map Prod.fst).Nodup := by
    rw [List.map_map]
    exact hnodupids
  have hlwf := lastWrite_eq_of_nodup hnodupfst hfmem
  have hq0 : hasSongEntry orders a it0.id = false := by
    have := List.of_mem_filter hmem
    simpa using this
  have hq : ∀ it2 ∈ items, it2.id = it0.id →
      (!(hasSongEntry orders a it2.id)) = true := by
    intro it2 _ hid
    rw [hid, hq0]
    rfl
  rw [← lastWrite_filter_map hq]
  exact hlwf

theorem applySongWrites_second_id (orders : List ArtistSongOrder) (a : Nat)
    (items : List ItemOrder)
    (hok : songInsertsOK orders (songReorderInserts orders a items) = true) :
    ∀ e ∈ (orders.map (applySongWrites (songReorderWrites orders a items) a)) ++
        songReorderInserts orders a items,
      applySongWrites (items.map (fun it => (it.id, it.position))) a e = e := by
  intro e he
  rcases List.mem_append.mp he with hm | hm
  · rcases List.mem_map.mp hm with ⟨e0, he0, hee⟩
    rw [← hee]
    cases ha0 : (e0.artist_id == a) with
    | false =>
      have h1 : applySongWrites (songReorderWrites orders a items) a e0 = e0 := by
        unfold applySongWrites
        rw [ha0]
        simp
      rw [h1]
      unfold applySongWrites
      rw [ha0]
      simp
    | true =>
      have hhase : hasSongEntry orders a e0.song_id = true :=
        hasSongEntry_iff.mpr ⟨e0, he0, beq_iff_eq.mp ha0, rfl⟩
      have hq : ∀ it2 ∈ items, it2.id = e0.song_id →
          hasSongEntry orders a it2.id = true := by
        intro it2 _ hid
        rw [hid]
        exact hhase
      have hlweq : lastWrite (songReorderWrites orders a items) e0.song_id =
          lastWrite (items.map (fun it => (it.id, it.position))) e0.song_id := by
        unfold songReorderWrites
        exact lastWrite_filter_map hq
      cases hlw : lastWrite (items.map (fun it => (it.id, it.position)))
          e0.song_id with
      | none =>
        have h1 : applySongWrites (songReorderWrites orders a items) a e0 = e0 := by
          unfold applySongWrites
          rw [ha0, hlweq, hlw]
          simp
        rw [h1]
        unfold applySongWrites
        rw [ha0, hlw]
        simp
      | some p =>
        have h1 : applySongWrites (songReorderWrites orders a items) a e0 =
            { e0 with display_order := p } := by
          unfold applySongWrites
          rw [ha0, hlweq, hlw]
          simp
        rw [h1]
        unfold applySongWrites
        have ha1 : (({ e0 with display_order := p } :
            ArtistSongOrder).artist_id == a) = true := ha0
        rw [ha1]
        have hs1 : ({ e0 with display_order := p } :
            ArtistSongOrder).song_id = e0.song_id := rfl
        rw [hs1, hlw]
        rfl
  · rcases List.mem_map.mp hm with ⟨it0, hit0, hee⟩
    rw [← hee]
    have hlw0 := lastWrite_all_of_song_insert orders a items hok hit0
    unfold applySongWrites
    simp only [beq_self_eq_true, if_true]
    rw [hlw0]

theorem reorder_songs_idem (db : DB) (a : Nat) (items : List ItemOrder) :
    (reorder_artist_songs (reorder_artist_songs db a items).1 a items).1 =
      (reorder_artist_songs db a items).1 := by
  cases hart : db.artists.any (fun ar => ar.id == a) with
  | false =>
    have h1 : reorder_artist_songs db a items = (db, .error (.notFound a)) := by
      unfold reorder_artist_songs
      rw [hart]
      rfl
    rw [h1]
    dsimp only
    rw [h1]
  | true =>
    cases hfind : items.find? (fun it =>
        !(db.songs.any (fun s => s.id == it.id && s.artist_id == some a))) with
    | some it0 =>
      have h1 : reorder_artist_songs db a items =
          (db, .error (.invalidReference it0.id)) := by
        unfold reorder_artist_songs
        rw [hart, hfind]
        simp only [Bool.not_true, Bool.false_eq_true, if_false]
      rw [h1]
      dsimp only
      rw [h1]
    | none =>
      have hvalid : ∀ it ∈ items,
          db.songs.any (fun s => s.id == it.id && s.artist_id == some a) = true := by
        intro it hit
        have := List.find?_eq_none.mp hfind it hit
        simp only [Bool.not_eq_true', Bool.not_eq_false] at this
        exact this
      cases hok : songInsertsOK db.artist_song_orders
          (songReorderInserts db.artist_song_orders a items) with
      | false =>
        have h1 : reorder_artist_songs db a items = (db, .error .storageFailure) := by
          unfold reorder_artist_songs
          rw [hart, hfind]
          simp only [Bool.not_true, Bool.false_eq_true, if_false]
          rw [hok]
          simp
        rw [h1]
        dsimp only
        rw [h1]
      | true =>
        have heq := reorder_songs_eq_of_ok db a items hart hvalid hok
        rw [heq]
        dsimp only
        have hall2 : ∀ it ∈ items, hasSongEntry
            ((db.artist_song_orders.map
              (applySongWrites (songReorderWrites db.artist_song_orders a items) a)) ++
              songReorderInserts db.artist_song_orders a items) a it.id = true :=
          fun it hit => hasSongEntry_after_reorder db.artist_song_orders a items it hit
        have hins2 : songReorderInserts
            ((db.artist_song_orders.map
              (applySongWrites (songReorderWrites db.artist_song_orders a items) a)) ++
              songReorderInserts db.artist_song_orders a items) a items = [] :=
          songReorderInserts_eq_nil hall2
        have h3b : songInsertsOK
            ((db.artist_song_orders.map
              (applySongWrites (songReorderWrites db.artist_song_orders a items) a)) ++
              songReorderInserts db.artist_song_orders a items)
            (songReorderInserts
              ((db.artist_song_orders.map
                (applySongWrites (songReorderWrites db.artist_song_orders a items) a)) ++
                songReorderInserts db.artist_song_orders a items) a items) = true := by
          rw [hins2]
          rfl
        rw [reorder_songs_eq_of_ok
          ({ db with artist_song_orders :=
            (db.artist_song_orders.map
              (applySongWrites (songReorderWrites db.artist_song_orders a items) a)) ++
              songReorderInserts db.artist_song_orders a items }) a items hart hvalid h3b]
        dsimp only
        rw [hins2, List.append_nil]
        have hws2 : songReorderWrites
            ((db.artist_song_orders.map
              (applySongWrites (songReorderWrites db.artist_song_orders a items) a)) ++
              songReorderInserts db.artist_song_orders a items) a items =
            items.map (fun it => (it.id, it.position)) :=
          songReorderWrites_eq_map hall2
        rw [hws2]
        rw [List.map_congr_left (applySongWrites_second_id db.artist_song_orders a items hok),
          List.map_id']

theorem videoReorderInserts_eq_nil {tbl : List ArtistVideoOrder} {a : Nat}
    {items : List ItemOrder}
    (h : ∀ it ∈ items, hasVideoEntry tbl a it.id = true) :
    videoReorderInserts tbl a items = [] := by
  unfold videoReorderInserts
  rw [List.filter_eq_nil_iff.mpr ?_]
  · rfl
  · intro it hit
    simp [h it hit]

theorem videoReorderWrites_eq_map {tbl : List ArtistVideoOrder} {a : Nat}
    {items : List ItemOrder}
    (h : ∀ it ∈ items, hasVideoEntry tbl a it.id = true) :
    videoReorderWrites tbl a items = items.map (fun it => (it.id, it.position)) := by
  unfold videoReorderWrites
  rw [List.filter_eq_self.mpr h]

theorem hasVideoEntry_after_reorder (orders : List ArtistVideoOrder) (a : Nat)
    (items : List ItemOrder) (it : ItemOrder) (hit : it ∈ items) :
    hasVideoEntry ((orders.map (applyVideoWrites (videoReorderWrites orders a items) a)) ++
      videoReorderInserts orders a items) a it.id = true := by
  rw [hasVideoEntry_append, hasVideoEntry_map_applyVideoWrites]
  cases hhas : hasVideoEntry orders a it.id with
  | true => rfl
  | false =>
    simp only [Bool.false_or]
    apply hasVideoEntry_iff.mpr
    refine ⟨⟨a, it.id, it.position⟩, ?_, rfl, rfl⟩
    unfold videoReorderInserts
    have : ({ artist_id := a, video_id := it.id, display_order := it.position } :
        ArtistVideoOrder) =
        (fun it2 => ({ artist_id := a, video_id := it2.id, display_order := it2.position } : ArtistVideoOrder)) it := rfl
    rw [this]
    apply List.mem_map_of_mem
    apply List.mem_filter.mpr
    exact ⟨hit, by rw [hhas]; rfl⟩

theorem lastWrite_all_of_video_insert (orders : List ArtistVideoOrder) (a : Nat)
    (items : List ItemOrder)
    (hok : videoInsertsOK orders (videoReorderInserts orders a items) = true)
    {it0 : ItemOrder}
    (hmem : it0 ∈ items.filter (fun it => !(hasVideoEntry orders a it.id))) :
    lastWrite (items.map (fun it => (it.id, it.position))) it0.id =
      some it0.position := by
  have hnodupkeys : ((videoReorderInserts orders a items).map
      ArtistVideoOrder.key).Nodup := insertKeysOK_nodup_ins hok
  have hkeysshape : (videoReorderInserts orders a items).map ArtistVideoOrder.key =
      ((items.filter (fun it => !(hasVideoEntry orders a it.id))).map
        (fun it => it.id)).map (fun i => (a, i)) := by
    unfold videoReorderInserts
    rw [List.map_map, List.map_map]
    rfl
  rw [hkeysshape] at hnodupkeys
  have hnodupids := List.Nodup.of_map _ hnodupkeys
  have hfmem : (it0.id, it0.position) ∈
      (items.filter (fun it => !(hasVideoEntry orders a it.id))).map
        (fun it => (it.id, it.position)) := List.mem_map_of_mem _ hmem
  have hnodupfst : (((items.filter (fun it => !(hasVideoEntry orders a it.id))).map
      (fun it => (it.id, it.position))).map Prod.fst).Nodup := by
    rw [List.map_map]
    exact hnodupids
  have hlwf := lastWrite_eq_of_nodup hnodupfst hfmem
  have hq0 : hasVideoEntry orders a it0.id = false := by
    have := List.of_mem_filter hmem
    simpa using this
  have hq : ∀ it2 ∈ items, it2.id = it0.id →
      (!(hasVideoEntry orders a it2.id)) = true := by
    intro it2 _ hid
    rw [hid, hq0]
    rfl
  rw [← lastWrite_filter_map hq]
  exact hlwf

theorem applyVideoWrites_second_id (orders : List ArtistVideoOrder) (a : Nat)
    (items : List ItemOrder)
    (hok : videoInsertsOK orders (videoReorderInserts orders a items) = true) :
    ∀ e ∈ (orders.map (applyVideoWrites (videoReorderWrites orders a items) a)) ++
        videoReorderInserts orders a items,
      applyVideoWrites (items.map (fun it => (it.id, it.position))) a e = e := by
  intro e he
  rcases List.mem_append.mp he with hm | hm
  · rcases List.mem_map.mp hm with ⟨e0, he0, hee⟩
    rw [← hee]
    cases ha0 : (e0.artist_id == a) with
    | false =>
      have h1 : applyVideoWrites (videoReorderWrites orders a items) a e0 = e0 := by
        unfold applyVideoWrites
        rw [ha0]
        simp
      rw [h1]
      unfold applyVideoWrites
      rw [ha0]
      simp
    | true =>
      have hhase : hasVideoEntry orders a e0.video_id = true :=
        hasVideoEntry_iff.mpr ⟨e0, he0, beq_iff_eq.mp ha0, rfl⟩
      have hq : ∀ it2 ∈ items, it2.id = e0.video_id →
          hasVideoEntry orders a it2.id = true := by
        intro it2 _ hid
        rw [hid]
        exact hhase
      have hlweq : lastWrite (videoReorderWrites orders a items) e0.video_id =
          lastWrite (items.map (fun it => (it.id, it.position))) e0.video_id := by
        unfold videoReorderWrites
        exact lastWrite_filter_map hq
      cases hlw : lastWrite (items.map (fun it => (it.id, it.position)))
          e0.video_id with
      | none =>
        have h1 : applyVideoWrites (videoReorderWrites orders a items) a e0 = e0 := by
          unfold applyVideoWrites
          rw [ha0, hlweq, hlw]
          simp
        rw [h1]
        unfold applyVideoWrites
        rw [ha0, hlw]
        simp
      | some p =>
        have h1 : applyVideoWrites (videoReorderWrites orders a items) a e0 =
            { e0 with display_order := p } := by
          unfold applyVideoWrites
          rw [ha0, hlweq, hlw]
          simp
        rw [h1]
        unfold applyVideoWrites
        have ha1 : (({ e0 with display_order := p } :
            ArtistVideoOrder).artist_id == a) = true := ha0
        rw [ha1]
        have hs1 : ({ e0 with display_order := p } :
            ArtistVideoOrder).video_id = e0.video_id := rfl
        rw [hs1, hlw]
        rfl
  · rcases List.mem_map.mp hm with ⟨it0, hit0, hee⟩
    rw [← hee]
    have hlw0 := lastWrite_all_of_video_insert orders a items hok hit0
    unfold applyVideoWrites
    simp only [beq_self_eq_true, if_true]
    rw [hlw0]

theorem reorder_videos_idem (db : DB) (a : Nat) (items : List ItemOrder) :
    (reorder_artist_videos (reorder_artist_videos db a items).1 a items).1 =
      (reorder_artist_videos db a items).1 := by
  cases hart : db.artists.any (fun ar => ar.id == a) with
  | false =>
    have h1 : reorder_artist_videos db a items = (db, .error (.notFound a)) := by
      unfold reorder_artist_videos
      rw [hart]
      rfl
    rw [h1]
    dsimp only
    rw [h1]
  | true =>
    cases hfind : items.find? (fun it =>
        !(db.videos.any (fun v => v.id == it.id && v.artist_id == some a))) with
    | some it0 =>
      have h1 : reorder_artist_videos db a items =
          (db, .error (.invalidReference it0.id)) := by
        unfold reorder_artist_videos
        rw [hart, hfind]
        simp only [Bool.not_true, Bool.false_eq_true, if_false]
      rw [h1]
      dsimp only
      rw [h1]
    | none =>
      have hvalid : ∀ it ∈ items,
          db.videos.any (fun v => v.id == it.id && v.artist_id == some a) = true := by
        intro it hit
        have := List.find?_eq_none.mp hfind it hit
        simp only [Bool.not_eq_true', Bool.not_eq_false] at this
        exact this
      cases hok : videoInsertsOK db.artist_video_orders
          (videoReorderInserts db.artist_video_orders a items) with
      | false =>
        have h1 : reorder_artist_videos db a items = (db, .error .storageFailure) := by
          unfold reorder_artist_videos
          rw [hart, hfind]
          simp only [Bool.not_true, Bool.false_eq_true, if_false]
          rw [hok]
          simp
        rw [h1]
        dsimp only
        rw [h1]
      | true =>
        have heq := reorder_videos_eq_of_ok db a items hart hvalid hok
        rw [heq]
        dsimp only
        have hall2 : ∀ it ∈ items, hasVideoEntry
            ((db.artist_video_orders.map
              (applyVideoWrites (videoReorderWrites db.artist_video_orders a items) a)) ++
              videoReorderInserts db.artist_video_orders a items) a it.id = true :=
          fun it hit => hasVideoEntry_after_reorder db.artist_video_orders a items it hit
        have hins2 : videoReorderInserts
            ((db.artist_video_orders.map
              (applyVideoWrites (videoReorderWrites db.artist_video_orders a items) a)) ++
              videoReorderInserts db.artist_video_orders a items) a items = [] :=
          videoReorderInserts_eq_nil hall2
        have h3b : videoInsertsOK
            ((db.artist_video_orders.map
              (applyVideoWrites (videoReorderWrites db.artist_video_orders a items) a)) ++
              videoReorderInserts db.artist_video_orders a items)
            (videoReorderInserts
              ((db.artist_video_orders.map
                (applyVideoWrites (videoReorderWrites db.artist_video_orders a items) a)) ++
                videoReorderInserts db.artist_video_orders a items) a items) = true := by
          rw [hins2]
          rfl
        rw [reorder_videos_eq_of_ok
          ({ db with artist_video_orders :=
            (db.artist_video_orders.map
              (applyVideoWrites (videoReorderWrites db.artist_video_orders a items) a)) ++
              videoReorderInserts db.artist_video_orders a items }) a items hart hvalid h3b]
        dsimp only
        rw [hins2, List.append_nil]
        have hws2 : videoReorderWrites
            ((db.artist_video_orders.map
              (applyVideoWrites (videoReorderWrites db.artist_video_orders a items) a)) ++
              videoReorderInserts db.artist_video_orders a items) a items =
            items.map (fun it => (it.id, it.position)) :=
          videoReorderWrites_eq_map hall2
        rw [hws2]
        rw [List.map_congr_left (applyVideoWrites_second_id db.artist_video_orders a items hok),
          List.map_id']


theorem reorder_featured_idem (db : DB) (ps : List (Nat × Int)) :
    (reorder_featured_music (reorder_featured_music db ps).1 ps).1 =
      (reorder_featured_music db ps).1 := by
  cases hfind : ps.find? (fun w => !(hasFeaturedEntry db.featured_music w.1)) with
  | some w0 =>
    have h1 : reorder_featured_music db ps = (db, .error (.notFound w0.1)) := by
      unfold reorder_featured_music
      rw [hfind]
    rw [h1]
    dsimp only
    rw [h1]
  | none =>
    have hall : ∀ w ∈ ps, hasFeaturedEntry db.featured_music w.1 = true := by
      intro w hw
      have := List.find?_eq_none.mp hfind w hw
      simp only [Bool.not_eq_true', Bool.not_eq_false] at this
      exact this
    have heq := reorder_featured_eq_of_ok db ps hall
    rw [heq]
    dsimp only
    have hall2 : ∀ w ∈ ps, hasFeaturedEntry
        (db.featured_music.map (applyFeaturedWrites ps)) w.1 = true := by
      intro w hw
      rw [hasFeaturedEntry_map_applyFeaturedWrites]
      exact hall w hw
    rw [reorder_featured_eq_of_ok
      ({ db with featured_music := db.featured_music.map (applyFeaturedWrites ps) })
      ps hall2]
    dsimp only
    have hpt : ∀ e ∈ db.featured_music.map (applyFeaturedWrites ps),
        applyFeaturedWrites ps e = e := by
      intro e he
      rcases List.mem_map.mp he with ⟨e0, _, hee⟩
      rw [← hee]
      cases hlw : lastWrite ps e0.song_id with
      | none =>
        simp only [applyFeaturedWrites, hlw]
      | some p =>
        simp only [applyFeaturedWrites, hlw]
    rw [List.map_congr_left hpt, List.map_id']

/-- C7: for every parent and every reorder batch, running the reorder
operation twice in a row with the same items leaves the committed
positions identical to running it once, for the artist-song, artist-video
and featured-song relations alike — whether the request succeeds or is
rejected. -/
theorem C7_reorder_idempotent (db : DB) (a : Nat) (items : List ItemOrder)
    (ps : List (Nat × Int)) :
    (reorder_artist_songs (reorder_artist_songs db a items).1 a items).1 =
      (reorder_artist_songs db a items).1 ∧
    (reorder_artist_videos (reorder_artist_videos db a items).1 a items).1 =
      (reorder_artist_videos db a items).1 ∧
    (reorder_featured_music (reorder_featured_music db ps).1 ps).1 =
      (reorder_featured_music db ps).1 :=
  ⟨reorder_songs_idem db a items, reorder_videos_idem db a items,
   reorder_featured_idem db ps⟩

end Exodus
